import Mathlib

/-! OpenXcom: mod sprite loader, geoscape event logic and start-up loader.

A shallow embedding of

* `src/Mod/ExtraSprites.cpp` (`load`, `loadSurface`, `loadSurfaceSet`, `getFrame`),
* `src/Geoscape/GeoscapeEventState.cpp` (`eventLogic`),
* `src/Menu/StartState.cpp` (`load`, `setSplash`),

with the properties proved about them.

Conventions of the embedding.

* C++ `int` values are `Int`; signed overflow is undefined behaviour in C++ and is not modelled.
* A pointer that may be null is an `Option`.
* A pointer to a frame owned by a `SurfaceSet` is the key of that frame in the set, and the
  set is passed explicitly.
* `Log(...)` output is not modelled.
-/

namespace OpenXcom

/-! ## Results of fallible code -/

/-- Outcome of running a piece of code that can throw or have no defined behaviour. -/
inductive Res (α : Type) where
  /-- Normal return. -/
  | ok (a : α)
  /-- An `Exception` with the given `what()` propagates out of the function. -/
  | thrown (what : String)
  /-- The C++ execution has undefined behaviour (empty-container access, null dereference). -/
  | undefined
  /-- The loop budget of the model ran out before the loop ended. -/
  | outOfFuel
  deriving DecidableEq, Repr

/-- Sequencing of fallible steps: the first outcome that is not `ok` ends the run. -/
def Res.bind {α β : Type} (r : Res α) (f : α → Res β) : Res β :=
  match r with
  | .ok a => f a
  | .thrown w => .thrown w
  | .undefined => .undefined
  | .outOfFuel => .outOfFuel

/-! ## `std::map` -/

/-- The `find` of a `std::map`: the value stored under `k`, if any. The map is an association
list; `mapSet` keeps the keys of a map distinct, and of two entries with one key the first
would be the live one. -/
def mapFind {κ α : Type} [DecidableEq κ] : List (κ × α) → κ → Option α
  | [], _ => none
  | (k', v) :: t, k => if k' = k then some v else mapFind t k

/-- The `m[k] = v` of a `std::map`: overwrite the value under `k`, or create the entry. -/
def mapSet {κ α : Type} [DecidableEq κ] : List (κ × α) → κ → α → List (κ × α)
  | [], k, v => [(k, v)]
  | (k', v') :: t, k, v => if k' = k then (k', v) :: t else (k', v') :: mapSet t k v

/-- Iteration order of a `std::map<int, T>`: ascending keys. -/
def intMapEntries {α : Type} (m : List (Int × α)) : List (Int × α) :=
  m.insertionSort (fun a b => a.1 ≤ b.1)

/-- The `begin()` of a `std::map<int, T>`: the first entry in iteration order, `none` for
`end()` (empty map). -/
def intMapBegin {α : Type} (m : List (Int × α)) : Option (Int × α) :=
  (intMapEntries m).head?

/-! ## Engine collaborators of the sprite loader -/

/-- Modelled from the spec: `Engine/Surface` is not among the sources. A surface is described by
the size it was created with and the calls made on it since, in order; nothing is assumed about
what the calls do to the pixels. -/
inductive Surface where
  /-- The call `new Surface(width, height)`. -/
  | create (width height : Int)
  /-- The call `s->loadImage(filename)`. -/
  | loadImage (s : Surface) (filename : String)
  /-- The call `s->clear()`. -/
  | clear (s : Surface)
  /-- The call `src->blitNShade(dst, x, y, shade)`, recorded on the destination `dst`. -/
  | blitNShade (dst src : Surface) (x y shade : Int)
  deriving DecidableEq, Repr

/-- Modelled from the spec: `Engine/SurfaceSet` is not among the sources. A surface set has the
frame size it was created with and a `std::map<int, Surface*>` of frames. -/
structure SurfaceSet where
  _width : Int
  _height : Int
  _frames : List (Int × Surface)
  deriving DecidableEq, Repr

/-- Modelled from the spec: `new SurfaceSet(width, height)`, a set without frames. -/
def SurfaceSet.create (width height : Int) : SurfaceSet :=
  { _width := width, _height := height, _frames := [] }

/-- Modelled from the spec: `SurfaceSet::getFrame(i)`, the frame at `i` or null. -/
def SurfaceSet.getFrame (set : SurfaceSet) (i : Int) : Option Surface :=
  mapFind set._frames i

/-- Modelled from the spec: `SurfaceSet::addFrame(i)`, which puts a newly created frame of the
set's frame size at `i` and returns it. -/
def SurfaceSet.addFrame (set : SurfaceSet) (i : Int) : SurfaceSet :=
  { set with _frames := mapSet set._frames i (Surface.create set._width set._height) }

/-- A call made through a frame pointer obtained from the set: the frame at `key` becomes
`f frame`. -/
def SurfaceSet.onFrame (set : SurfaceSet) (key : Int) (f : Surface → Surface) : SurfaceSet :=
  match set.getFrame key with
  | some frame => { set with _frames := mapSet set._frames key (f frame) }
  | none => set

/-- Modelled from the spec: the parts of `Engine/FileMap`, `Engine/CrossPlatform`,
`Engine/Unicode` and of image decoding that the sprite loader calls, none of them among the
sources. -/
structure FileSystem where
  /-- Whether `Surface::loadImage(filename)` throws: it throws `Exception(what)` when this is
  `some what` and returns when it is `none`. -/
  imageError : String → Option String
  /-- The names in `FileMap::getVFolderContents(folder)` after `std::sort` with
  `Unicode::naturalCompare`. -/
  sortedFolderContents : String → List String
  /-- The test `CrossPlatform::compareExt(filename, extension)`. -/
  compareExt : String → String → Bool

/-! ## `ExtraSprites` -/

/-- The data members of `ExtraSprites`. -/
structure ExtraSprites where
  _type : String
  _sprites : List (Int × String)
  _width : Int
  _height : Int
  _singleImage : Bool
  _modIndex : Int
  _subX : Int
  _subY : Int
  _loaded : Bool
  deriving DecidableEq, Repr

namespace ExtraSprites

/-- The constructor `ExtraSprites::ExtraSprites()`. -/
def new : ExtraSprites :=
  { _type := "", _sprites := [], _width := 320, _height := 200, _singleImage := false,
    _modIndex := 0, _subX := 0, _subY := 0, _loaded := false }

/-- The keys that `ExtraSprites::load` reads from the YAML node. `node[key].as<T>(fallback)`
yields the converted value when there is one and `fallback` otherwise, so each key is the
optional converted value. -/
structure Node where
  type : Option String
  typeSingle : Option String
  fileSingle : Option String
  files : Option (List (Int × String))
  width : Option Int
  height : Option Int
  singleImage : Option Bool
  subX : Option Int
  subY : Option Int
  deriving DecidableEq, Repr

/-- Member function `ExtraSprites::load(node, modIndex)`. -/
def load (es : ExtraSprites) (node : Node) (modIndex : Int) : ExtraSprites :=
  let es := { es with _type := node.type.getD es._type }
  let es :=
    if es._type = "" then
      let typeSingle : String := node.typeSingle.getD ""
      let es :=
        if typeSingle ≠ "" then { es with _type := typeSingle, _singleImage := true } else es
      let fileSingle : String := node.fileSingle.getD ""
      if fileSingle ≠ "" then { es with _sprites := mapSet es._sprites 0 fileSingle } else es
    else es
  { es with
    _sprites := node.files.getD es._sprites
    _width := node.width.getD es._width
    _height := node.height.getD es._height
    _singleImage := node.singleImage.getD es._singleImage
    _subX := node.subX.getD es._subX
    _subY := node.subY.getD es._subY
    _modIndex := modIndex }

/-- Member function `ExtraSprites::getType()`. -/
def getType (es : ExtraSprites) : String := es._type

/-- Member function `ExtraSprites::getSprites()`. -/
def getSprites (es : ExtraSprites) : List (Int × String) := es._sprites

/-- Member function `ExtraSprites::getWidth()`. -/
def getWidth (es : ExtraSprites) : Int := es._width

/-- Member function `ExtraSprites::getHeight()`. -/
def getHeight (es : ExtraSprites) : Int := es._height

/-- Member function `ExtraSprites::getSingleImage()`. -/
def getSingleImage (es : ExtraSprites) : Bool := es._singleImage

/-- Member function `ExtraSprites::getModIndex()`. -/
def getModIndex (es : ExtraSprites) : Int := es._modIndex

/-- Member function `ExtraSprites::getSubX()`. -/
def getSubX (es : ExtraSprites) : Int := es._subX

/-- Member function `ExtraSprites::getSubY()`. -/
def getSubY (es : ExtraSprites) : Int := es._subY

/-- Member function `ExtraSprites::isLoaded()`. -/
def isLoaded (es : ExtraSprites) : Bool := es._loaded

/-- Static function `ExtraSprites::isImageFile(filename)`. -/
def isImageFile (fs : FileSystem) (filename : String) : Bool :=
  ["PNG", "GIF", "BMP", "LBM", "IFF", "PCX", "TGA", "TIF", "TIFF"].any
    (fun ext => fs.compareExt filename ext)

/-- Member function `ExtraSprites::loadSurface(surface)`: the members afterwards and the returned pointer. The
`delete surface` of an existing surface leaves no trace in the model. -/
def loadSurface (fs : FileSystem) (es : ExtraSprites) (surface : Option Surface) :
    ExtraSprites × Res (Option Surface) :=
  if !es._singleImage then (es, .ok surface)
  else
    let es := { es with _loaded := true }
    let surface := Surface.create es._width es._height
    match intMapBegin es._sprites with
    | none => (es, .undefined)
    | some (_, filename) =>
      match fs.imageError filename with
      | some what => (es, .thrown what)
      | none => (es, .ok (some (surface.loadImage filename)))

/-- Member function `ExtraSprites::getFrame(set, index, adding)`: the set afterwards and the key of the frame
whose pointer is returned. -/
def getFrame (es : ExtraSprites) (set : SurfaceSet) (index : Int) (adding : Bool) :
    SurfaceSet × Int :=
  match set.getFrame index with
  | some _ => (set, index)
  | none =>
    if adding then (set.addFrame index, index)
    else (set.addFrame (index + es._modIndex), index + es._modIndex)

/-- The `fileName[fileName.length() - 1] == '/'` test of `loadSurfaceSet`; `none` for the empty
file name, where the index is out of range. -/
def isFolder (fileName : String) : Option Bool :=
  match fileName.data.getLast? with
  | none => none
  | some c => some (c = '/')

/-- The `for (auto k = contents.begin(); ...)` loop of the folder branch of `loadSurfaceSet`:
the set and `offset` after the files `contents` of `fileName`. A frame is obtained before the
image is loaded, so a load that throws (the exception is caught) still leaves the frame in the
set and does not advance `offset`. -/
def loadFolder (fs : FileSystem) (es : ExtraSprites) (adding : Bool) (fileName : String) :
    List String → SurfaceSet × Int → SurfaceSet × Int
  | [], st => st
  | k :: contents, (set, offset) =>
    if !isImageFile fs k then loadFolder fs es adding fileName contents (set, offset)
    else
      let (set, key) := getFrame es set offset adding
      let set := set.onFrame key (fun frame => frame.loadImage (fileName ++ k))
      match fs.imageError (fileName ++ k) with
      | none => loadFolder fs es adding fileName contents (set, offset + 1)
      | some _ => loadFolder fs es adding fileName contents (set, offset)

/-- The body of the inner `for (int x = 0; ...)` loop of the subdivision branch of
`loadSurfaceSet`, for the frame `offset` and the blit position `(dx, dy)`: an existing frame at
`offset` is cleared, the frame is obtained through `getFrame`, and the sheet `temp` is blitted
onto it at `(dx, dy)` with shade 0. -/
def writeTile (es : ExtraSprites) (temp : Surface) (adding : Bool) (set : SurfaceSet)
    (offset dx dy : Int) : SurfaceSet :=
  let set :=
    match set.getFrame offset with
    | some _ => set.onFrame offset Surface.clear
    | none => set
  let (set, key) := getFrame es set offset adding
  set.onFrame key (fun frame => Surface.blitNShade frame temp dx dy 0)

/-- The loop `for (int x = ...; x != xDivision; ++x)` of `loadSurfaceSet` from the given `x`,
set and `offset`, with a budget of `fuel` iterations. -/
def tileRow (es : ExtraSprites) (temp : Surface) (adding : Bool) (xDivision y : Int) :
    Nat → Int → SurfaceSet × Int → Res (SurfaceSet × Int)
  | 0, x, st => if x ≠ xDivision then .outOfFuel else .ok st
  | fuel + 1, x, (set, offset) =>
    if x ≠ xDivision then
      tileRow es temp adding xDivision y fuel (x + 1)
        (writeTile es temp adding set offset (0 - x * es._subX) (0 - y * es._subY), offset + 1)
    else .ok (set, offset)

/-- The loop `for (int y = ...; y != yDivision; ++y)` of `loadSurfaceSet` from the given `y`,
set and `offset`; each row gets the budget `fuel`, and so does the number of rows. -/
def tileRows (es : ExtraSprites) (temp : Surface) (adding : Bool) (xDivision yDivision : Int)
    (fuel : Nat) : Nat → Int → SurfaceSet × Int → Res (SurfaceSet × Int)
  | 0, y, st => if y ≠ yDivision then .outOfFuel else .ok st
  | rows + 1, y, st =>
    if y ≠ yDivision then
      (tileRow es temp adding xDivision y fuel 0 st).bind
        (fun st => tileRows es temp adding xDivision yDivision fuel rows (y + 1) st)
    else .ok st

/-- The body of the loop over `_sprites` in `loadSurfaceSet`, for the entry
`(startFrame, fileName)`. -/
def loadSprite (fs : FileSystem) (es : ExtraSprites) (fuel : Nat) (adding : Bool)
    (set : SurfaceSet) (entry : Int × String) : Res SurfaceSet :=
  let startFrame := entry.1
  let fileName := entry.2
  let subdivision : Bool := es._subX ≠ 0 && es._subY ≠ 0
  match isFolder fileName with
  | none => .undefined
  | some true =>
    .ok (loadFolder fs es adding fileName (fs.sortedFolderContents fileName) (set, startFrame)).1
  | some false =>
    if !subdivision then
      let (set, key) := getFrame es set startFrame false
      let set := set.onFrame key (fun frame => frame.loadImage fileName)
      match fs.imageError fileName with
      | some what => .thrown what
      | none => .ok set
    else
      let temp := (Surface.create es._width es._height).loadImage fileName
      match fs.imageError fileName with
      | some what => .thrown what
      | none =>
        let xDivision := Int.tdiv es._width es._subX
        let yDivision := Int.tdiv es._height es._subY
        (tileRows es temp adding xDivision yDivision fuel fuel 0 (set, startFrame)).bind
          (fun st => .ok st.1)

/-- The loop over `_sprites` of `loadSurfaceSet`, over the entries still to visit. -/
def loadSprites (fs : FileSystem) (es : ExtraSprites) (fuel : Nat) (adding : Bool) :
    List (Int × String) → SurfaceSet → Res SurfaceSet
  | [], set => .ok set
  | entry :: rest, set =>
    (loadSprite fs es fuel adding set entry).bind (loadSprites fs es fuel adding rest)

/-- Member function `ExtraSprites::loadSurfaceSet(set)`: the members afterwards and the returned pointer, with
a budget of `fuel` iterations for each loop over tiles. -/
def loadSurfaceSet (fs : FileSystem) (es : ExtraSprites) (fuel : Nat) (set : Option SurfaceSet) :
    ExtraSprites × Res (Option SurfaceSet) :=
  if es._singleImage then (es, .ok set)
  else
    let es := { es with _loaded := true }
    let subdivision : Bool := es._subX ≠ 0 && es._subY ≠ 0
    let (adding, set) :=
      match set with
      | none =>
        (true, if subdivision then SurfaceSet.create es._subX es._subY
               else SurfaceSet.create es._width es._height)
      | some set => (false, set)
    (es, (loadSprites fs es fuel adding (intMapEntries es._sprites) set).bind
      (fun set => .ok (some set)))

end ExtraSprites


/-! ## Collaborators of the geoscape event -/

/-- Modelled from the spec: `Engine/RNG` is not among the sources. The generator state is the
sequence of raw numbers it will produce; `RNG::generate(min, max)` takes the next raw number
and maps it into the range from `min` to `max`. -/
def RNG.generate (rng : List Nat) (min max : Int) : Int × List Nat :=
  (min + (rng.headD 0 : Int) % (max - min + 1), rng.tail)

/-- Modelled from the spec: `Engine/Language` and `Engine/LocalizedText` are not among the
sources: `tr(id)` and `text.arg(value)`. -/
structure Language where
  tr : String → String
  arg : String → String → String

/-- Modelled from the spec: `Mod/City` is not among the sources; a city has the name that
`City::getName(language)` translates. -/
structure City where
  name : String
  deriving DecidableEq, Repr

/-- Modelled from the spec: `City::getName(language)`. -/
def City.getName (city : City) (lang : Language) : String := lang.tr city.name

/-- Modelled from the spec: `Mod/RuleRegion` is not among the sources. A rule object is
identified by its contents, so that pointer equality of rules is equality of the records. -/
structure RuleRegion where
  type : String
  cities : List City
  deriving DecidableEq, Repr

/-- Modelled from the spec: `Mod/RuleItem` is not among the sources; only `getType()` is used. -/
structure RuleItem where
  type : String
  deriving DecidableEq, Repr

/-- Modelled from the spec: `Mod/RuleResearch` is not among the sources; `getName()` and
`getLookup()` are used. A rule object is identified by its contents. -/
structure RuleResearch where
  name : String
  lookup : String
  deriving DecidableEq, Repr

/-- Modelled from the spec: `Mod/WeightedOptions` is not among the sources; `empty()` and
`choose()` are used, and `choose()` draws from the random number generator. -/
structure WeightedOptions where
  empty : Bool
  choose : List Nat → String × List Nat

/-- Modelled from the spec: `Mod/RuleEvent` is not among the sources; the getters that
`eventLogic` calls. Containers are given by their elements in iteration order. -/
structure RuleEvent where
  name : String
  description : String
  regionList : List String
  citySpecific : Bool
  points : Int
  funds : Int
  everyMultiItemList : List (String × Int)
  everyItemList : List String
  randomItemList : List String
  weightedItemList : WeightedOptions
  researchList : List String

/-- Modelled from the spec: `Mod/Mod` is not among the sources. `getRegion(id, true)`,
`getItem(id, true)` and `getResearch(id, true)` return a pointer to a rule, which
`eventLogic` tests against null. -/
structure Mod where
  getRegion : String → Option RuleRegion
  getItem : String → Option RuleItem
  getResearch : String → Option RuleResearch

/-- Modelled from the spec: `Savegame/Transfer` is not among the sources; the arrival time in
hours given to the constructor and the item set by `setItems`. -/
structure Transfer where
  hours : Int
  itemId : String
  itemQty : Int
  deriving DecidableEq, Repr

/-- Modelled from the spec: the constructor `Transfer(hours)`. -/
def Transfer.new (hours : Int) : Transfer := { hours := hours, itemId := "", itemQty := 0 }

/-- Modelled from the spec: `Transfer::setItems(id, qty)`. -/
def Transfer.setItems (t : Transfer) (id : String) (qty : Int) : Transfer :=
  { t with itemId := id, itemQty := qty }

/-- Modelled from the spec: `Savegame/Base` is not among the sources; the list behind
`getTransfers()`. -/
structure Base where
  transfers : List Transfer
  deriving DecidableEq, Repr

/-- Modelled from the spec: `Savegame/Region` is not among the sources; `getRules()` and the
XCOM activity that `addActivityXcom` adds to. -/
structure Region where
  rules : RuleRegion
  activityXcom : Int
  deriving DecidableEq, Repr

/-- Modelled from the spec: `Region::addActivityXcom(activity)`. -/
def Region.addActivityXcom (region : Region) (activity : Int) : Region :=
  { region with activityXcom := region.activityXcom + activity }

/-- Modelled from the spec: `Savegame/SavedGame` is not among the sources. `funds` is what
`getFunds()` reads and `setFunds` writes, `researchScore` is what `addResearchScore` adds to,
`discovered` is what `isResearched` consults, and `finishedResearch` is the research handed
to `addFinishedResearch`, in call order. -/
structure SavedGame where
  funds : Int
  researchScore : Int
  regions : List Region
  bases : List Base
  discovered : List RuleResearch
  finishedResearch : List RuleResearch
  deriving DecidableEq, Repr

namespace SavedGame

/-- Modelled from the spec: `SavedGame::getFunds()`. -/
def getFunds (save : SavedGame) : Int := save.funds

/-- Modelled from the spec: `SavedGame::setFunds(funds)`. -/
def setFunds (save : SavedGame) (funds : Int) : SavedGame := { save with funds := funds }

/-- Modelled from the spec: `SavedGame::addResearchScore(score)`. -/
def addResearchScore (save : SavedGame) (score : Int) : SavedGame :=
  { save with researchScore := save.researchScore + score }

/-- Modelled from the spec: `SavedGame::isResearched(research, false)` for a non-null rule. -/
def isResearched (save : SavedGame) (research : RuleResearch) : Bool :=
  decide (research ∈ save.discovered)

/-- Modelled from the spec: `SavedGame::addFinishedResearch(research, mod, base, true)`; the
call is recorded, and what else it does to the saved game is not modelled. -/
def addFinishedResearch (save : SavedGame) (research : RuleResearch) : SavedGame :=
  { save with finishedResearch := save.finishedResearch ++ [research] }

end SavedGame

/-! ## `GeoscapeEventState::eventLogic` -/

/-- The state that `GeoscapeEventState::eventLogic` reads and writes: the saved game, the random
number generator, the texts of `_txtTitle` and `_txtMessage`, and `_researchName`. -/
structure EventWorld where
  save : SavedGame
  rng : List Nat
  _txtTitle : String
  _txtMessage : String
  _researchName : String
  deriving DecidableEq, Repr

namespace GeoscapeEventState

/-- The call `list.at(i)` of a `std::vector`, which throws when `i` is out of range. -/
def vectorAt {α : Type} (list : List α) (i : Int) : Res α :=
  match list[i.toNat]? with
  | some a => .ok a
  | none => .thrown "out_of_range"

/-- Lines 93 to 117 of `eventLogic`: the pick of the region rule (null when the region list is
empty) and the title and message texts. -/
def pickRegion (mod : Mod) (lang : Language) (rule : RuleEvent) (w : EventWorld) :
    Res (Option RuleRegion × EventWorld) :=
  if rule.regionList ≠ [] then
    let (pickRegion, rng) := RNG.generate w.rng 0 ((rule.regionList.length : Int) - 1)
    (vectorAt rule.regionList pickRegion).bind fun regionName =>
    let regionRule := mod.getRegion regionName
    let place := lang.tr regionName
    let picked : Res (String × List Nat) :=
      if rule.citySpecific then
        match regionRule with
        | none => .undefined
        | some regionRule =>
          let cities := regionRule.cities.length
          if cities > 0 then
            let (pickCity, rng) := RNG.generate rng 0 ((cities : Int) - 1)
            (vectorAt regionRule.cities pickCity).bind fun city =>
            .ok (city.getName lang, rng)
          else .ok (place, rng)
      else .ok (place, rng)
    picked.bind fun (place, rng) =>
    .ok (regionRule,
      { w with
        rng := rng
        _txtTitle := lang.arg (lang.tr rule.name) place
        _txtMessage := lang.arg (lang.tr rule.description) place })
  else .ok (none, w)

/-- The loop `for (auto region : *getRegions())` of step 1: the points go to the first region
whose rules are `regionRule`, and the loop ends there. -/
def addActivityToRegion (regionRule : RuleRegion) (points : Int) : List Region → List Region
  | [] => []
  | region :: rest =>
    if region.rules = regionRule then region.addActivityXcom points :: rest
    else region :: addActivityToRegion regionRule points rest

/-- Step 1 of `eventLogic` (lines 119 to 134), give/take score points. -/
def giveScore (rule : RuleEvent) (regionRule : Option RuleRegion) (w : EventWorld) : EventWorld :=
  match regionRule with
  | some regionRule =>
    { w with save :=
        { w.save with regions := addActivityToRegion regionRule rule.points w.save.regions } }
  | none => { w with save := w.save.addResearchScore rule.points }

/-- Step 2 of `eventLogic` (lines 136 to 137), give/take funds. -/
def giveFunds (rule : RuleEvent) (w : EventWorld) : EventWorld :=
  { w with save := w.save.setFunds (w.save.getFunds + rule.funds) }

/-- Order of `std::string` keys in a `std::map`: lexicographic on the characters. -/
def stringLess : List Char → List Char → Bool
  | [], [] => false
  | [], _ :: _ => true
  | _ :: _, [] => false
  | a :: as, b :: bs => a.toNat < b.toNat || (a.toNat = b.toNat && stringLess as bs)

/-- Iteration order of a `std::map<std::string, int>`: ascending keys. -/
def stringMapEntries (m : List (String × Int)) : List (String × Int) :=
  m.insertionSort (fun a b => stringLess b.1.data a.1.data = false)

/-- The statement `itemsToTransfer[type] += qty`: a missing entry is created with value 0
first. -/
def addItem (items : List (String × Int)) (type : String) (qty : Int) : List (String × Int) :=
  mapSet items type ((mapFind items type).getD 0 + qty)

/-- The loop over `getEveryMultiItemList()` of step 3. -/
def addEveryMultiItem (mod : Mod) :
    List (String × Int) → List (String × Int) → List (String × Int)
  | [], items => items
  | pair :: rest, items =>
    match mod.getItem pair.1 with
    | some itemRule => addEveryMultiItem mod rest (addItem items itemRule.type pair.2)
    | none => addEveryMultiItem mod rest items

/-- The loop over `getEveryItemList()` of step 3. -/
def addEveryItem (mod : Mod) : List String → List (String × Int) → List (String × Int)
  | [], items => items
  | itemName :: rest, items =>
    match mod.getItem itemName with
    | some itemRule => addEveryItem mod rest (addItem items itemRule.type 1)
    | none => addEveryItem mod rest items

/-- The `if (!rule.getRandomItemList().empty())` block of step 3. -/
def addRandomItem (mod : Mod) (rule : RuleEvent) (items : List (String × Int))
    (rng : List Nat) : Res (List (String × Int) × List Nat) :=
  if rule.randomItemList ≠ [] then
    let (pickItem, rng) := RNG.generate rng 0 ((rule.randomItemList.length : Int) - 1)
    (vectorAt rule.randomItemList pickItem).bind fun itemName =>
    match mod.getItem itemName with
    | some randomItem => .ok (addItem items randomItem.type 1, rng)
    | none => .ok (items, rng)
  else .ok (items, rng)

/-- The `if (!rule.getWeightedItemList().empty())` block of step 3. -/
def addWeightedItem (mod : Mod) (rule : RuleEvent) (items : List (String × Int))
    (rng : List Nat) : List (String × Int) × List Nat :=
  if !rule.weightedItemList.empty then
    let (itemName, rng) := rule.weightedItemList.choose rng
    match mod.getItem itemName with
    | some randomItem => (addItem items randomItem.type 1, rng)
    | none => (items, rng)
  else (items, rng)

/-- The loop `for (auto &ti : itemsToTransfer)` of step 3: one transfer per entry, pushed to
the back of the transfers of the HQ. -/
def pushTransfers : List (String × Int) → List Transfer → List Transfer
  | [], transfers => transfers
  | ti :: rest, transfers =>
    let t := (Transfer.new 1).setItems ti.1 ti.2
    pushTransfers rest (transfers ++ [t])

/-- Step 3 of `eventLogic` (lines 139 to 184), spawn/transfer items into the HQ, which is the
first base. -/
def transferItems (mod : Mod) (rule : RuleEvent) (w : EventWorld) : Res EventWorld :=
  let itemsToTransfer : List (String × Int) := []
  let itemsToTransfer := addEveryMultiItem mod rule.everyMultiItemList itemsToTransfer
  let itemsToTransfer := addEveryItem mod rule.everyItemList itemsToTransfer
  (addRandomItem mod rule itemsToTransfer w.rng).bind fun (itemsToTransfer, rng) =>
  let (itemsToTransfer, rng) := addWeightedItem mod rule itemsToTransfer rng
  match w.save.bases with
  | [] => .undefined
  | hq :: bases =>
    let hq := { hq with transfers := pushTransfers (stringMapEntries itemsToTransfer) hq.transfers }
    .ok { w with rng := rng, save := { w.save with bases := hq :: bases } }

/-- The loop `for (auto rName : rule.getResearchList())` of step 4. A name that resolves to
no research rule hands a null pointer to `SavedGame::isResearched`, to which the model gives no
meaning. -/
def possibilities (mod : Mod) (save : SavedGame) : List String → Res (List RuleResearch)
  | [] => .ok []
  | rName :: rest =>
    match mod.getResearch rName with
    | none => .undefined
    | some rRule =>
      (possibilities mod save rest).bind fun later =>
      .ok (if !save.isResearched rRule then rRule :: later else later)

/-- Step 4 of `eventLogic` (lines 186 to 211), give bonus research. -/
def bonusResearch (mod : Mod) (rule : RuleEvent) (w : EventWorld) : Res EventWorld :=
  (possibilities mod w.save rule.researchList).bind fun possibilities =>
  if possibilities ≠ [] then
    let (pickResearch, rng) := RNG.generate w.rng 0 ((possibilities.length : Int) - 1)
    (vectorAt possibilities pickResearch).bind fun eventResearch =>
    let w :=
      { w with
        rng := rng
        save := w.save.addFinishedResearch eventResearch
        _researchName := eventResearch.name }
    if eventResearch.lookup ≠ "" then
      match mod.getResearch eventResearch.lookup with
      | none => .undefined
      | some lookupResearch =>
        .ok { w with
              save := w.save.addFinishedResearch lookupResearch
              _researchName := lookupResearch.name }
    else .ok w
  else .ok w

/-- Lines 88 to 134 of `eventLogic`: the HQ is the front of the bases, then the pick of the
region (lines 93 to 117) and step 1. -/
def eventLogicScore (mod : Mod) (lang : Language) (rule : RuleEvent) (w : EventWorld) :
    Res EventWorld :=
  match w.save.bases with
  | [] => .undefined
  | _ :: _ =>
    (pickRegion mod lang rule w).bind fun (regionRule, w) =>
    .ok (giveScore rule regionRule w)

/-- Member function `GeoscapeEventState::eventLogic()` for the event rule `rule`. -/
def eventLogic (mod : Mod) (lang : Language) (rule : RuleEvent) (w : EventWorld) :
    Res EventWorld :=
  (eventLogicScore mod lang rule w).bind fun w =>
  let w := giveFunds rule w
  (transferItems mod rule w).bind fun w =>
  bonusResearch mod rule w

end GeoscapeEventState

/-! ## `StartState::load` -/

/-- The enumeration `LoadingPhase`. -/
inductive LoadingPhase where
  | LOADING_STARTED
  | LOADING_FAILED
  | LOADING_SUCCESSFUL
  | LOADING_DONE
  deriving DecidableEq, Repr

/-- Modelled from the spec: what the calls made by `StartState::load` do, none of them among
the sources. A step either completes (`none`) or throws an exception derived from
`std::exception` with the given `what()`. -/
structure StartEnv where
  /-- Outcome of `Options::updateMods()`. -/
  updateMods : Option String
  /-- Result of `FileMap::fileExists(name)`. -/
  fileExists : String → Bool
  /-- Outcome of `Surface::loadImage(name)`, which throws an `Exception`. -/
  imageError : String → Option String
  /-- Outcome of `_game->loadMods()`. -/
  loadMods : Option String
  /-- Outcome of `_game->loadLanguages()`. -/
  loadLanguages : Option String

/-- The static members `loading` and `error` of `StartState` and the members `_splash` and
`_splash_set`. -/
structure StartState where
  loading : LoadingPhase
  error : String
  _splash : Option Surface
  _splash_set : Bool
  deriving DecidableEq, Repr

namespace StartState

/-- Member function `StartState::setSplash(surface)`. -/
def setSplash (self : StartState) (surface : Surface) : StartState :=
  if !self._splash_set then { self with _splash := some surface } else self

/-- The inner `try` of `StartState::load` with its `catch (Exception &e)`, which only logs. -/
def loadSplash (env : StartEnv) (self : StartState) : StartState :=
  if env.fileExists "splash.png" then
    let splashsurf := Surface.create 320 200
    match env.imageError "splash.png" with
    | none => setSplash self (splashsurf.loadImage "splash.png")
    | some _ => self
  else self

/-- The outer `try` block of `StartState::load`: the state when the block is left, and the
`what()` of the exception that left it, if one did. -/
def loadTry (env : StartEnv) (self : StartState) : StartState × Option String :=
  match env.updateMods with
  | some what => (self, some what)
  | none =>
    let self := loadSplash env self
    match env.loadMods with
    | some what => (self, some what)
    | none =>
      match env.loadLanguages with
      | some what => (self, some what)
      | none => ({ self with loading := .LOADING_SUCCESSFUL }, none)

/-- Static function `StartState::load(this_ptr)`: the returned thread status and the state
afterwards. -/
def load (env : StartEnv) (self : StartState) : Int × StartState :=
  match loadTry env self with
  | (self, none) => (0, self)
  | (self, some what) => (0, { self with error := what, loading := .LOADING_FAILED })

end StartState

/-! ## Example inputs -/

namespace Example

/-- A file system in which every image loads and no folder has contents. -/
def files : FileSystem :=
  { imageError := fun _ => none, sortedFolderContents := fun _ => [], compareExt := fun _ _ => false }

/-- A language that leaves identifiers as they are and appends the argument. -/
def language : Language := { tr := fun id => id, arg := fun text value => text ++ " " ++ value }

/-- A mod with one region, two items and three research topics; every other name, the empty
one included, resolves to null. -/
def mod : Mod :=
  { getRegion := fun id => if id = "STR_EUROPE" then some ⟨"STR_EUROPE", [⟨"STR_ROME"⟩]⟩ else none
    getItem := fun id =>
      if id = "STR_RIFLE" then some ⟨"STR_RIFLE"⟩
      else if id = "STR_PISTOL" then some ⟨"STR_PISTOL"⟩
      else none
    getResearch := fun id =>
      if id = "STR_LASER" then some ⟨"STR_LASER", ""⟩
      else if id = "STR_ALIEN" then some ⟨"STR_ALIEN", "STR_ALIEN_ORIGINS"⟩
      else if id = "STR_ALIEN_ORIGINS" then some ⟨"STR_ALIEN_ORIGINS", ""⟩
      else none }

/-- An event rule worth 5 points whose region list holds one name, the empty one, and which
gives nothing else. -/
def unnamedRegionEvent : RuleEvent :=
  { name := "STR_EVENT", description := "STR_EVENT_DESCRIPTION", regionList := [""],
    citySpecific := false, points := 5, funds := 0, everyMultiItemList := [],
    everyItemList := [], randomItemList := [],
    weightedItemList := { empty := true, choose := fun rng => ("", rng) }, researchList := [] }

/-- An event rule in Europe, city specific, that takes 50 funds and gives 5 points, rifles and
pistols, and one of two research topics. -/
def richEvent : RuleEvent :=
  { name := "STR_EVENT", description := "STR_EVENT_DESCRIPTION", regionList := ["STR_EUROPE"],
    citySpecific := true, points := 5, funds := -50,
    everyMultiItemList := [("STR_RIFLE", 2), ("STR_UNKNOWN", 3)],
    everyItemList := ["STR_RIFLE", "STR_PISTOL"], randomItemList := ["STR_PISTOL"],
    weightedItemList := { empty := false, choose := fun rng => ("STR_RIFLE", rng.tail) },
    researchList := ["STR_LASER", "STR_ALIEN"] }

/-- A world with 100 funds, score 0, two regions, one base with one transfer under way, and
laser research done. The next raw random numbers are 0, 0, 0, 0, 0. -/
def world : EventWorld :=
  { save :=
      { funds := 100, researchScore := 0,
        regions := [⟨⟨"STR_ASIA", []⟩, 1⟩, ⟨⟨"STR_EUROPE", [⟨"STR_ROME"⟩]⟩, 2⟩],
        bases := [⟨[⟨24, "STR_MEDIKIT", 1⟩]⟩, ⟨[]⟩],
        discovered := [⟨"STR_LASER", ""⟩], finishedResearch := [] },
    rng := [0, 0, 0, 0, 0], _txtTitle := "STR_EVENT", _txtMessage := "STR_EVENT_DESCRIPTION",
    _researchName := "" }

/-- The world `world` after step 1 of the event `richEvent`. -/
def scoredWorld : EventWorld :=
  { save :=
      { funds := 100, researchScore := 0,
        regions := [⟨⟨"STR_ASIA", []⟩, 1⟩, ⟨⟨"STR_EUROPE", [⟨"STR_ROME"⟩]⟩, 7⟩],
        bases := [⟨[⟨24, "STR_MEDIKIT", 1⟩]⟩, ⟨[]⟩],
        discovered := [⟨"STR_LASER", ""⟩], finishedResearch := [] },
    rng := [0, 0, 0], _txtTitle := "STR_EVENT STR_ROME",
    _txtMessage := "STR_EVENT_DESCRIPTION STR_ROME", _researchName := "" }

/-- The world `world` after the event `richEvent`. -/
def finalWorld : EventWorld :=
  { save :=
      { funds := 50, researchScore := 0,
        regions := [⟨⟨"STR_ASIA", []⟩, 1⟩, ⟨⟨"STR_EUROPE", [⟨"STR_ROME"⟩]⟩, 7⟩],
        bases := [⟨[⟨24, "STR_MEDIKIT", 1⟩, ⟨1, "STR_PISTOL", 2⟩, ⟨1, "STR_RIFLE", 4⟩]⟩, ⟨[]⟩],
        discovered := [⟨"STR_LASER", ""⟩],
        finishedResearch := [⟨"STR_ALIEN", "STR_ALIEN_ORIGINS"⟩, ⟨"STR_ALIEN_ORIGINS", ""⟩] },
    rng := [], _txtTitle := "STR_EVENT STR_ROME",
    _txtMessage := "STR_EVENT_DESCRIPTION STR_ROME", _researchName := "STR_ALIEN_ORIGINS" }

/-- The world `world` after the event `unnamedRegionEvent`, and already after its step 1. -/
def unnamedWorld : EventWorld :=
  { save :=
      { funds := 100, researchScore := 5,
        regions := [⟨⟨"STR_ASIA", []⟩, 1⟩, ⟨⟨"STR_EUROPE", [⟨"STR_ROME"⟩]⟩, 2⟩],
        bases := [⟨[⟨24, "STR_MEDIKIT", 1⟩]⟩, ⟨[]⟩],
        discovered := [⟨"STR_LASER", ""⟩], finishedResearch := [] },
    rng := [0, 0, 0, 0], _txtTitle := "STR_EVENT ", _txtMessage := "STR_EVENT_DESCRIPTION ",
    _researchName := "" }

/-- A sprite set made of one 5 x 4 sheet at frame 10, cut into 2 x 2 tiles, of a mod with
index 1000. -/
def sheet : ExtraSprites :=
  { _type := "TILES.PCK", _sprites := [(10, "sheet.png")], _width := 5, _height := 4,
    _singleImage := false, _modIndex := 1000, _subX := 2, _subY := 2, _loaded := false }

/-- The sheet of `sheet` once loaded. -/
def sheetSurface : Surface := (Surface.create 5 4).loadImage "sheet.png"

/-- The surface set that `loadSurfaceSet` creates for `sheet` when it is given no set. -/
def tiledSet : SurfaceSet :=
  { _width := 2, _height := 2,
    _frames :=
      [(10, .blitNShade (.create 2 2) sheetSurface 0 0 0),
       (11, .blitNShade (.create 2 2) sheetSurface (-2) 0 0),
       (12, .blitNShade (.create 2 2) sheetSurface 0 (-2) 0),
       (13, .blitNShade (.create 2 2) sheetSurface (-2) (-2) 0)] }

/-- An existing set of 2 x 2 frames with a frame at 11 only. -/
def oldSet : SurfaceSet := { _width := 2, _height := 2, _frames := [(11, .create 2 2)] }

/-- The set `oldSet` after `loadSurfaceSet` for `sheet`: frame 11 is cleared and replaced in
place, the other three tiles are created 1000 frames further. -/
def retiledSet : SurfaceSet :=
  { _width := 2, _height := 2,
    _frames :=
      [(11, .blitNShade (.clear (.create 2 2)) sheetSurface (-2) 0 0),
       (1010, .blitNShade (.create 2 2) sheetSurface 0 0 0),
       (1012, .blitNShade (.create 2 2) sheetSurface 0 (-2) 0),
       (1013, .blitNShade (.create 2 2) sheetSurface (-2) (-2) 0)] }

end Example

/-! ## Properties of the `std::map` operations -/

theorem mapFind_mapSet_same {κ α : Type} [DecidableEq κ] (m : List (κ × α)) (k : κ) (v : α) :
    mapFind (mapSet m k v) k = some v := by
  induction m with
  | nil => simp [mapSet, mapFind]
  | cons e t ih =>
    obtain ⟨k', v'⟩ := e
    by_cases h : k' = k
    · simp [mapSet, mapFind, h]
    · simp [mapSet, mapFind, h, ih]

theorem mapFind_mapSet_other {κ α : Type} [DecidableEq κ] (m : List (κ × α)) (k j : κ) (v : α)
    (hj : j ≠ k) : mapFind (mapSet m k v) j = mapFind m j := by
  induction m with
  | nil => simp [mapSet, mapFind, Ne.symm hj]
  | cons e t ih =>
    obtain ⟨k', v'⟩ := e
    by_cases h : k' = k
    · subst h
      simp [mapSet, mapFind, Ne.symm hj]
    · by_cases h' : k' = j
      · subst h'
        simp [mapSet, mapFind, h]
      · simp [mapSet, mapFind, h, h', ih]

/-! ## Properties of `ExtraSprites` -/

namespace ExtraSprites


/-- C1. `getFrame` replaces or creates: when the set has a frame at `index`, the set is left as
it is and the pointer returned is the one to that frame (key `index`); otherwise the set
afterwards is the set after one `addFrame(target)`, with `target = index` when `adding` and
`target = index + _modIndex` when not, the pointer returned is the one to the frame at `target`,
that frame is a newly created one, and the frame at every other key is as before. -/
theorem getFrame_replaces_or_creates (es : ExtraSprites) (set : SurfaceSet) (index : Int)
    (adding : Bool) :
    (∀ frame, set.getFrame index = some frame →
      getFrame es set index adding = (set, index)) ∧
    (set.getFrame index = none →
      ∃ target, target = (if adding then index else index + es._modIndex) ∧
        getFrame es set index adding = (set.addFrame target, target) ∧
        (set.addFrame target).getFrame target
          = some (Surface.create set._width set._height) ∧
        ∀ j, j ≠ target → (set.addFrame target).getFrame j = set.getFrame j) := by
  refine ⟨fun frame h => by simp [getFrame, h], fun h => ?_⟩
  refine ⟨_, rfl, ?_, ?_, ?_⟩
  · cases adding <;> simp [getFrame, h]
  · simp [SurfaceSet.addFrame, SurfaceSet.getFrame, mapFind_mapSet_same]
  · intro j hj
    simp [SurfaceSet.addFrame, SurfaceSet.getFrame, mapFind_mapSet_other _ _ _ _ hj]

/-- Witness of C1: a set with one frame at key 5 and `_modIndex = 1000`; frame 5 is replaced
in place, frame 7 is created at key 1007 when not adding. -/
theorem getFrame_replaces_or_creates_witness :
    getFrame { ExtraSprites.new with _modIndex := 1000 }
        ((SurfaceSet.create 32 40).addFrame 5) 5 false
      = ((SurfaceSet.create 32 40).addFrame 5, 5) ∧
    ∃ target, target = (if false then (7 : Int) else 7 + 1000) ∧
      getFrame { ExtraSprites.new with _modIndex := 1000 }
          ((SurfaceSet.create 32 40).addFrame 5) 7 false
        = (((SurfaceSet.create 32 40).addFrame 5).addFrame target, target) ∧
      (((SurfaceSet.create 32 40).addFrame 5).addFrame target).getFrame target
        = some (Surface.create 32 40) ∧
      ∀ j, j ≠ target → (((SurfaceSet.create 32 40).addFrame 5).addFrame target).getFrame j
        = ((SurfaceSet.create 32 40).addFrame 5).getFrame j :=
  ⟨(getFrame_replaces_or_creates { ExtraSprites.new with _modIndex := 1000 }
      ((SurfaceSet.create 32 40).addFrame 5) 5 false).1 (Surface.create 32 40) (by decide),
   (getFrame_replaces_or_creates { ExtraSprites.new with _modIndex := 1000 }
      ((SurfaceSet.create 32 40).addFrame 5) 7 false).2 (by decide)⟩

theorem intMapBegin_smallest {α : Type} (m : List (Int × α)) (hne : m ≠ []) :
    ∃ e, intMapBegin m = some e ∧ e ∈ m ∧ ∀ e' ∈ m, e.1 ≤ e'.1 := by
  have hperm : List.Perm (List.insertionSort (fun a b : Int × α => a.1 ≤ b.1) m) m :=
    List.perm_insertionSort _ m
  haveI : IsTotal (Int × α) (fun a b => a.1 ≤ b.1) := ⟨fun a b => le_total a.1 b.1⟩
  haveI : IsTrans (Int × α) (fun a b => a.1 ≤ b.1) := ⟨fun a b c hab hbc => le_trans hab hbc⟩
  have hsorted : List.Sorted (fun a b : Int × α => a.1 ≤ b.1)
      (List.insertionSort (fun a b : Int × α => a.1 ≤ b.1) m) :=
    List.sorted_insertionSort _ m
  cases hl : List.insertionSort (fun a b : Int × α => a.1 ≤ b.1) m with
  | nil =>
    rw [hl] at hperm
    exact absurd (List.Perm.eq_nil (List.Perm.symm hperm)) hne
  | cons e t =>
    rw [hl] at hperm hsorted
    refine ⟨e, by simp [intMapBegin, intMapEntries, hl], ?_, ?_⟩
    · exact (List.Perm.mem_iff hperm).1 (List.mem_cons_self e t)
    · intro e' he'
      rcases List.mem_cons.1 ((List.Perm.mem_iff hperm).2 he') with h | h
      · rw [h]
      · exact List.rel_of_sorted_cons hsorted e' h

/-- C3. `loadSurface` on a single image with a non-empty sprite map: for every input surface
(null or existing), `isLoaded()` is true afterwards, and when `loadImage` returns the result is
a newly created surface of size `_width` x `_height` on which the file of an entry with the
smallest key of the map was loaded. (When `loadImage` throws, the exception leaves
`loadSurface`.) -/
theorem loadSurface_single_image (fs : FileSystem) (es : ExtraSprites) (surface : Option Surface)
    (hsingle : es._singleImage = true) (hne : es._sprites ≠ []) :
    ∃ key filename, (key, filename) ∈ es._sprites ∧ (∀ e ∈ es._sprites, key ≤ e.1) ∧
      (loadSurface fs es surface).1.isLoaded = true ∧
      (loadSurface fs es surface).1 = { es with _loaded := true } ∧
      (fs.imageError filename = none →
        (loadSurface fs es surface).2
          = .ok (some ((Surface.create es._width es._height).loadImage filename))) ∧
      (∀ what, fs.imageError filename = some what →
        (loadSurface fs es surface).2 = .thrown what) := by
  obtain ⟨⟨key, filename⟩, hbegin, hmem, hmin⟩ := intMapBegin_smallest es._sprites hne
  refine ⟨key, filename, hmem, hmin, ?_, ?_, ?_, ?_⟩
  · cases h : fs.imageError filename <;> simp [loadSurface, hsingle, hbegin, h, isLoaded]
  · cases h : fs.imageError filename <;> simp [loadSurface, hsingle, hbegin, h]
  · intro h
    simp [loadSurface, hsingle, hbegin, h]
  · intro what h
    simp [loadSurface, hsingle, hbegin, h]

/-- Witness of C3: a 64 x 48 single image whose map has the entries 7 and 3; the file under key
3 is loaded into a new surface, replacing an existing one. -/
theorem loadSurface_single_image_witness :
    ∃ key filename, (key, filename) ∈ [((7 : Int), "b.png"), (3, "a.png")] ∧
      (∀ e ∈ [((7 : Int), "b.png"), (3, "a.png")], key ≤ e.1) ∧
      (loadSurface Example.files
        { ExtraSprites.new with _singleImage := true, _width := 64, _height := 48,
                                _sprites := [(7, "b.png"), (3, "a.png")] }
        (some (Surface.create 1 1))).1.isLoaded = true ∧
      (loadSurface Example.files
        { ExtraSprites.new with _singleImage := true, _width := 64, _height := 48,
                                _sprites := [(7, "b.png"), (3, "a.png")] }
        (some (Surface.create 1 1))).2 = .ok (some ((Surface.create 64 48).loadImage "a.png")) := by
  obtain ⟨key, filename, hmem, hmin, hloaded, _, hok, _⟩ :=
    loadSurface_single_image Example.files
      { ExtraSprites.new with _singleImage := true, _width := 64, _height := 48,
                              _sprites := [(7, "b.png"), (3, "a.png")] }
      (some (Surface.create 1 1)) rfl (by decide)
  exact ⟨key, filename, hmem, hmin, hloaded, by decide⟩

/-- C4. A loader of the wrong kind does nothing: with `_singleImage` false, `loadSurface`
returns the surface it was given and leaves every member, `_loaded` included, as it was; with
`_singleImage` true, `loadSurfaceSet` returns the set it was given, untouched, and leaves every
member as it was. -/
theorem wrong_kind_is_noop (fs : FileSystem) (es : ExtraSprites) (fuel : Nat) :
    (es._singleImage = false →
      ∀ surface, loadSurface fs es surface = (es, .ok surface)) ∧
    (es._singleImage = true →
      ∀ set, loadSurfaceSet fs es fuel set = (es, .ok set)) := by
  constructor
  · intro h surface
    simp [loadSurface, h]
  · intro h set
    simp [loadSurfaceSet, h]

/-- Witness of C4: a sprite set given an existing surface, and a single image given an existing
surface set with one frame. -/
theorem wrong_kind_is_noop_witness :
    (∀ surface, loadSurface Example.files
        { ExtraSprites.new with _sprites := [(0, "a.png")] } surface
      = ({ ExtraSprites.new with _sprites := [(0, "a.png")] }, .ok surface)) ∧
    (∀ set, loadSurfaceSet Example.files
        { ExtraSprites.new with _sprites := [(0, "a.png")], _singleImage := true } 10 set
      = ({ ExtraSprites.new with _sprites := [(0, "a.png")], _singleImage := true }, .ok set)) :=
  ⟨(wrong_kind_is_noop Example.files
      { ExtraSprites.new with _sprites := [(0, "a.png")] } 10).1 rfl,
   (wrong_kind_is_noop Example.files
      { ExtraSprites.new with _sprites := [(0, "a.png")], _singleImage := true } 10).2 rfl⟩

/-- C5. `load` consults `typeSingle` and `fileSingle` only when the type is still empty after
reading `type`: whenever it is not empty, changing the two keys changes nothing. On a newly
constructed `ExtraSprites`, a node without `type` and `singleImage` and with a non-empty
`typeSingle` gives `getType() = typeSingle` and `getSingleImage() = true`; a node with a
non-empty `type` gives `getType() = type` and `getSingleImage()` equal to the `singleImage` of
the node, false if absent. `getModIndex()` is the `modIndex` argument in every case. -/
theorem load_type_and_single (node : Node) (modIndex : Int) :
    (∀ (es : ExtraSprites) (typeSingle fileSingle : Option String),
      node.type.getD es._type ≠ "" →
      load es { node with typeSingle := typeSingle, fileSingle := fileSingle } modIndex
        = load es node modIndex) ∧
    (∀ typeSingle, node.type = none → node.singleImage = none →
      node.typeSingle = some typeSingle → typeSingle ≠ "" →
      (load ExtraSprites.new node modIndex).getType = typeSingle ∧
      (load ExtraSprites.new node modIndex).getSingleImage = true) ∧
    (∀ type, node.type = some type → type ≠ "" →
      (load ExtraSprites.new node modIndex).getType = type ∧
      (load ExtraSprites.new node modIndex).getSingleImage = node.singleImage.getD false) ∧
    (∀ es : ExtraSprites, (load es node modIndex).getModIndex = modIndex) := by
  refine ⟨?_, ?_, ?_, ?_⟩
  · intro es typeSingle fileSingle h
    simp [load, h]
  · intro typeSingle h1 h2 h3 h4
    simp only [load, ExtraSprites.new, getType, getSingleImage, h1, h2, h3, h4]
    by_cases hf : node.fileSingle.getD "" = "" <;> simp [hf, h4]
  · intro type h1 h2
    simp [load, ExtraSprites.new, getType, getSingleImage, h1, h2]
  · intro es
    simp [load, getModIndex]

/-- Witness of C5: the node `{type: "BIGOBS.PCK", typeSingle: "X", fileSingle: "x.png",
singleImage: true}`, which has a non-empty `type`, loaded with mod index 3000, and its variant
with `typeSingle` alone. -/
theorem load_type_and_single_witness :
    (load ExtraSprites.new
        ⟨some "BIGOBS.PCK", some "X", some "x.png", none, none, none, some true, none, none⟩
        3000).getType = "BIGOBS.PCK" ∧
    (load ExtraSprites.new
        ⟨some "BIGOBS.PCK", some "X", some "x.png", none, none, none, some true, none, none⟩
        3000).getSingleImage = (some true).getD false ∧
    (load ExtraSprites.new
        ⟨none, some "X", none, none, none, none, none, none, none⟩ 3000).getType = "X" ∧
    (load ExtraSprites.new
        ⟨none, some "X", none, none, none, none, none, none, none⟩ 3000).getSingleImage = true :=
  ⟨((load_type_and_single
      ⟨some "BIGOBS.PCK", some "X", some "x.png", none, none, none, some true, none, none⟩
      3000).2.2.1 "BIGOBS.PCK" rfl (by decide)).1,
   ((load_type_and_single
      ⟨some "BIGOBS.PCK", some "X", some "x.png", none, none, none, some true, none, none⟩
      3000).2.2.1 "BIGOBS.PCK" rfl (by decide)).2,
   ((load_type_and_single ⟨none, some "X", none, none, none, none, none, none, none⟩
      3000).2.1 "X" rfl rfl rfl (by decide)).1,
   ((load_type_and_single ⟨none, some "X", none, none, none, none, none, none, none⟩
      3000).2.1 "X" rfl rfl rfl (by decide)).2⟩

theorem tileRow_run (es : ExtraSprites) (temp : Surface) (adding : Bool) (n : Nat) (y : Int) :
    ∀ (k x fuel : Nat) (set : SurfaceSet) (offset : Int), x + k = n → k ≤ fuel →
      tileRow es temp adding (n : Int) y fuel (x : Int) (set, offset)
        = .ok ((List.range' x k).foldl
            (fun (s : SurfaceSet) (i : Nat) =>
              writeTile es temp adding s (offset + ((i : Int) - (x : Int)))
                (0 - (i : Int) * es._subX) (0 - y * es._subY)) set,
          offset + (k : Int)) := by
  intro k
  induction k with
  | zero =>
    intro x fuel set offset hx _
    have hxn : (x : Int) = (n : Int) := by omega
    cases fuel <;> simp [tileRow, hxn]
  | succ k ih =>
    intro x fuel set offset hx hk
    obtain ⟨f, rfl⟩ : ∃ f, fuel = f + 1 := ⟨fuel - 1, by omega⟩
    have hne : (x : Int) ≠ (n : Int) := by omega
    have hrec := ih (x + 1) f
      (writeTile es temp adding set offset (0 - (x : Int) * es._subX) (0 - y * es._subY))
      (offset + 1) (by omega) (by omega)
    have hfun :
        (fun (s : SurfaceSet) (i : Nat) =>
          writeTile es temp adding s (offset + 1 + ((i : Int) - ((x + 1 : Nat) : Int)))
            (0 - (i : Int) * es._subX) (0 - y * es._subY))
        = (fun (s : SurfaceSet) (i : Nat) =>
          writeTile es temp adding s (offset + ((i : Int) - (x : Int)))
            (0 - (i : Int) * es._subX) (0 - y * es._subY)) := by
      funext s i
      congr 1
      push_cast
      ring
    rw [hfun] at hrec
    simp only [tileRow, if_pos hne]
    push_cast at hrec
    rw [hrec, List.range'_succ]
    simp only [List.foldl_cons, sub_self, add_zero]
    congr 2
    push_cast
    ring

theorem tileRows_run (es : ExtraSprites) (temp : Surface) (adding : Bool) (xN m fuel : Nat)
    (hfuel : xN ≤ fuel) :
    ∀ (k y rows : Nat) (set : SurfaceSet) (offset : Int), y + k = m → k ≤ rows →
      tileRows es temp adding (xN : Int) (m : Int) fuel rows (y : Int) (set, offset)
        = .ok ((List.range' y k).foldl
            (fun (s : SurfaceSet) (j : Nat) =>
              (List.range' 0 xN).foldl
                (fun (s : SurfaceSet) (i : Nat) =>
                  writeTile es temp adding s
                    (offset + ((j : Int) - (y : Int)) * (xN : Int) + (i : Int))
                    (0 - (i : Int) * es._subX) (0 - (j : Int) * es._subY)) s) set,
          offset + (k : Int) * (xN : Int)) := by
  intro k
  induction k with
  | zero =>
    intro y rows set offset hy _
    have hym : (y : Int) = (m : Int) := by omega
    cases rows <;> simp [tileRows, hym]
  | succ k ih =>
    intro y rows set offset hy hk
    obtain ⟨r, rfl⟩ : ∃ r, rows = r + 1 := ⟨rows - 1, by omega⟩
    have hne : (y : Int) ≠ (m : Int) := by omega
    have hrow := tileRow_run es temp adding xN (y : Int) xN 0 fuel set offset (by omega) hfuel
    simp only [tileRows, if_pos hne]
    rw [show ((0 : Nat) : Int) = 0 from rfl] at hrow
    rw [hrow]
    simp only [Res.bind]
    have hrec := ih (y + 1) r
      ((List.range' 0 xN).foldl
        (fun (s : SurfaceSet) (i : Nat) =>
          writeTile es temp adding s (offset + ((i : Int) - ((0 : Nat) : Int)))
            (0 - (i : Int) * es._subX) (0 - (y : Int) * es._subY)) set)
      (offset + (xN : Int)) (by omega) (by omega)
    have hfun :
        (fun (s : SurfaceSet) (j : Nat) =>
          (List.range' 0 xN).foldl
            (fun (s : SurfaceSet) (i : Nat) =>
              writeTile es temp adding s
                (offset + (xN : Int) + ((j : Int) - ((y + 1 : Nat) : Int)) * (xN : Int) + (i : Int))
                (0 - (i : Int) * es._subX) (0 - (j : Int) * es._subY)) s)
        = (fun (s : SurfaceSet) (j : Nat) =>
          (List.range' 0 xN).foldl
            (fun (s : SurfaceSet) (i : Nat) =>
              writeTile es temp adding s
                (offset + ((j : Int) - (y : Int)) * (xN : Int) + (i : Int))
                (0 - (i : Int) * es._subX) (0 - (j : Int) * es._subY)) s) := by
      funext s j
      congr 1
      funext s i
      congr 1
      push_cast
      ring
    rw [hfun] at hrec
    push_cast at hrec
    rw [hrec, List.range'_succ]
    simp only [List.foldl_cons, sub_self, zero_mul, add_zero, Nat.cast_zero, sub_zero]
    congr 2
    push_cast
    ring

theorem foldl_flatMap_tiles {σ β γ : Type} (f : σ → γ → σ) (g : β → List γ) :
    ∀ (l : List β) (s : σ),
      (l.flatMap g).foldl f s = l.foldl (fun s b => (g b).foldl f s) s := by
  intro l
  induction l with
  | nil => intro s; rfl
  | cons b t ih =>
    intro s
    simp [List.flatMap_cons, List.foldl_append, ih]

theorem length_flatMap_tiles (xN : Nat) :
    ∀ yN : Nat,
      ((List.range yN).flatMap
        (fun (y : Nat) => (List.range xN).map
          (fun (x : Nat) => ((x : Int), (y : Int))))).length = yN * xN := by
  intro yN
  induction yN with
  | zero => simp
  | succ n ih =>
    rw [List.range_succ, List.flatMap_append, List.length_append, ih]
    simp [Nat.succ_mul]

/-- The loop body of `loadSurfaceSet` on a sheet, as a fold of `writeTile` over the tiles. -/
theorem loadSprite_run (fs : FileSystem) (es : ExtraSprites) (adding : Bool)
    (set : SurfaceSet) (startFrame : Int) (fileName : String)
    (hfile : isFolder fileName = some false) (hload : fs.imageError fileName = none)
    (hsx : 0 < es._subX) (hsy : 0 < es._subY) (hw : 0 ≤ es._width) (hh : 0 ≤ es._height)
    (fuel : Nat)
    (hfuel : max (Int.tdiv es._width es._subX).toNat (Int.tdiv es._height es._subY).toNat
      ≤ fuel) :
    loadSprite fs es fuel adding set (startFrame, fileName)
      = .ok (((List.range (Int.tdiv es._height es._subY).toNat).flatMap
          (fun (y : Nat) => (List.range (Int.tdiv es._width es._subX).toNat).map
            (fun (x : Nat) => ((x : Int), (y : Int))))).foldl
          (fun (s : SurfaceSet) (t : Int × Int) =>
            writeTile es ((Surface.create es._width es._height).loadImage fileName) adding s
              (startFrame + t.2 * Int.tdiv es._width es._subX + t.1)
              (-(t.1 * es._subX)) (-(t.2 * es._subY))) set) := by
  have hxnn : 0 ≤ Int.tdiv es._width es._subX := Int.tdiv_nonneg hw (le_of_lt hsx)
  have hynn : 0 ≤ Int.tdiv es._height es._subY := Int.tdiv_nonneg hh (le_of_lt hsy)
  obtain ⟨xN, hxN⟩ : ∃ xN : Nat, Int.tdiv es._width es._subX = (xN : Int) :=
    ⟨_, (Int.toNat_of_nonneg hxnn).symm⟩
  obtain ⟨yN, hyN⟩ : ∃ yN : Nat, Int.tdiv es._height es._subY = (yN : Int) :=
    ⟨_, (Int.toNat_of_nonneg hynn).symm⟩
  rw [hxN, hyN, Int.toNat_natCast, Int.toNat_natCast] at hfuel
  have hrows := tileRows_run es ((Surface.create es._width es._height).loadImage fileName)
    adding xN yN fuel (le_trans (le_max_left _ _) hfuel) yN 0 fuel set startFrame
    (by omega) (le_trans (le_max_right _ _) hfuel)
  rw [show ((0 : Nat) : Int) = 0 from rfl] at hrows
  have hsub : (decide (es._subX ≠ 0) && decide (es._subY ≠ 0)) = true := by
    simp [ne_of_gt hsx, ne_of_gt hsy]
  simp only [loadSprite, hfile, hload, hsub, hxN, hyN, hrows, Res.bind, Bool.not_true,
    Bool.false_eq_true, if_false, Int.toNat_natCast]
  rw [foldl_flatMap_tiles]
  simp only [← List.range_eq_range', List.foldl_map]
  congr 1
  apply List.foldl_ext
  intro s y _
  apply List.foldl_ext
  intro s x _
  simp only [sub_zero, zero_sub]

theorem tiles_length (es : ExtraSprites)
    (hsx : 0 < es._subX) (hsy : 0 < es._subY) (hw : 0 ≤ es._width) (hh : 0 ≤ es._height) :
    ((((List.range (Int.tdiv es._height es._subY).toNat).flatMap
        (fun (y : Nat) => (List.range (Int.tdiv es._width es._subX).toNat).map
          (fun (x : Nat) => ((x : Int), (y : Int))))).length : Nat) : Int)
      = Int.tdiv es._width es._subX * Int.tdiv es._height es._subY := by
  have hxnn : 0 ≤ Int.tdiv es._width es._subX := Int.tdiv_nonneg hw (le_of_lt hsx)
  have hynn : 0 ≤ Int.tdiv es._height es._subY := Int.tdiv_nonneg hh (le_of_lt hsy)
  rw [length_flatMap_tiles]
  push_cast
  rw [Int.toNat_of_nonneg hxnn, Int.toNat_of_nonneg hynn]
  ring

theorem mapSet_mapSet_same {κ α : Type} [DecidableEq κ] (m : List (κ × α)) (k : κ) (v v' : α) :
    mapSet (mapSet m k v) k v' = mapSet m k v' := by
  induction m with
  | nil => simp [mapSet]
  | cons e t ih =>
    obtain ⟨k', w⟩ := e
    by_cases h : k' = k
    · simp [mapSet, h]
    · simp [mapSet, h, ih]

/-- What `writeTile` does to the frames: an existing frame at `offset` is cleared and gets the
blit; otherwise a newly created frame gets it, at `offset` when adding and at
`offset + _modIndex` when not. -/
theorem writeTile_frames (es : ExtraSprites) (temp : Surface) (adding : Bool) (s : SurfaceSet)
    (offset dx dy : Int) :
    writeTile es temp adding s offset dx dy
      = (match s.getFrame offset with
         | some frame =>
           SurfaceSet.mk s._width s._height (mapSet s._frames offset
             (Surface.blitNShade frame.clear temp dx dy 0))
         | none =>
           SurfaceSet.mk s._width s._height (mapSet s._frames
             (if adding then offset else offset + es._modIndex)
             (Surface.blitNShade (Surface.create s._width s._height) temp dx dy 0))) := by
  unfold writeTile
  cases h : s.getFrame offset with
  | some frame =>
    have h' : mapFind s._frames offset = some frame := h
    simp [SurfaceSet.onFrame, SurfaceSet.getFrame, getFrame, h', mapFind_mapSet_same,
      mapSet_mapSet_same]
  | none =>
    have h' : mapFind s._frames offset = none := h
    cases adding <;>
      simp [SurfaceSet.onFrame, SurfaceSet.getFrame, SurfaceSet.addFrame, getFrame, h',
        mapFind_mapSet_same, mapSet_mapSet_same]

theorem writeTile_loaded (es : ExtraSprites) (temp : Surface) (adding : Bool) (s : SurfaceSet)
    (offset dx dy : Int) :
    writeTile { es with _loaded := true } temp adding s offset dx dy
      = writeTile es temp adding s offset dx dy := rfl

theorem loadSprites_append (fs : FileSystem) (es : ExtraSprites) (fuel : Nat) (adding : Bool) :
    ∀ (l₁ l₂ : List (Int × String)) (s : SurfaceSet),
      loadSprites fs es fuel adding (l₁ ++ l₂) s
        = (loadSprites fs es fuel adding l₁ s).bind (loadSprites fs es fuel adding l₂) := by
  intro l₁
  induction l₁ with
  | nil => intro l₂ s; rfl
  | cons e t ih =>
    intro l₂ s
    simp only [List.cons_append, loadSprites]
    cases loadSprite fs es fuel adding s e with
    | ok s' => simpa [Res.bind] using ih l₂ s'
    | thrown w => rfl
    | undefined => rfl
    | outOfFuel => rfl

/-- C2. Tiling a sheet: let `(startFrame, fileName)` be an entry of the manifest that is not a
folder and whose sheet loads, in a sprite set with `_subX > 0`, `_subY > 0`, `_width >= 0` and
`_height >= 0`. There are exactly `(_width / _subX) * (_height / _subY)` tiles `(x, y)`, taken
row by row, and `write adding s (x, y)` is what writing one tile does to a set `s`: at frame
offset `startFrame + y * (_width / _subX) + x` an existing frame is cleared, the frame is the
one that `getFrame` returns for that offset (the existing one, or a newly created one at the
offset when adding and `_modIndex` further when not), and the sheet, a new surface of
`_width` x `_height` with the file loaded, is blitted onto it at `(-(x * _subX), -(y * _subY))`
with shade 0. With any loop budget from some bound on, the loop body of `loadSurfaceSet` for
the entry returns the set after these writes in order, and `loadSurfaceSet` itself, once the
entries before this one have left a set `s1`, goes on with the later entries from the set that
the writes make of `s1`. -/
theorem loadSurfaceSet_tiles (fs : FileSystem) (es : ExtraSprites) (set : Option SurfaceSet)
    (before after : List (Int × String)) (startFrame : Int) (fileName : String)
    (hsingle : es._singleImage = false)
    (hentries : intMapEntries es._sprites = before ++ (startFrame, fileName) :: after)
    (hfile : isFolder fileName = some false) (hload : fs.imageError fileName = none)
    (hsx : 0 < es._subX) (hsy : 0 < es._subY) (hw : 0 ≤ es._width) (hh : 0 ≤ es._height) :
    ∃ (tiles : List (Int × Int)) (write : Bool → SurfaceSet → Int × Int → SurfaceSet),
      tiles = (List.range (Int.tdiv es._height es._subY).toNat).flatMap
        (fun (y : Nat) => (List.range (Int.tdiv es._width es._subX).toNat).map
          (fun (x : Nat) => ((x : Int), (y : Int)))) ∧
      (tiles.length : Int) = Int.tdiv es._width es._subX * Int.tdiv es._height es._subY ∧
      (∀ (adding : Bool) (s : SurfaceSet) (t : Int × Int),
        write adding s t
          = (match s.getFrame (startFrame + t.2 * Int.tdiv es._width es._subX + t.1) with
             | some frame =>
               SurfaceSet.mk s._width s._height (mapSet s._frames
                 (startFrame + t.2 * Int.tdiv es._width es._subX + t.1)
                 (Surface.blitNShade frame.clear
                   ((Surface.create es._width es._height).loadImage fileName)
                   (-(t.1 * es._subX)) (-(t.2 * es._subY)) 0))
             | none =>
               SurfaceSet.mk s._width s._height (mapSet s._frames
                 (if adding then startFrame + t.2 * Int.tdiv es._width es._subX + t.1
                  else startFrame + t.2 * Int.tdiv es._width es._subX + t.1 + es._modIndex)
                 (Surface.blitNShade (Surface.create s._width s._height)
                   ((Surface.create es._width es._height).loadImage fileName)
                   (-(t.1 * es._subX)) (-(t.2 * es._subY)) 0)))) ∧
      (∀ (adding : Bool) (s cleared : SurfaceSet) (t : Int × Int),
        cleared = (match s.getFrame (startFrame + t.2 * Int.tdiv es._width es._subX + t.1) with
          | some frame =>
            SurfaceSet.mk s._width s._height (mapSet s._frames
              (startFrame + t.2 * Int.tdiv es._width es._subX + t.1) frame.clear)
          | none => s) →
        ∃ frame,
          (getFrame es cleared (startFrame + t.2 * Int.tdiv es._width es._subX + t.1)
              adding).1.getFrame
            (getFrame es cleared (startFrame + t.2 * Int.tdiv es._width es._subX + t.1)
              adding).2 = some frame ∧
          write adding s t
            = SurfaceSet.mk s._width s._height (mapSet
                (getFrame es cleared (startFrame + t.2 * Int.tdiv es._width es._subX + t.1)
                  adding).1._frames
                (getFrame es cleared (startFrame + t.2 * Int.tdiv es._width es._subX + t.1)
                  adding).2
                (Surface.blitNShade frame
                  ((Surface.create es._width es._height).loadImage fileName)
                  (-(t.1 * es._subX)) (-(t.2 * es._subY)) 0))) ∧
      ∃ bound : Nat, ∀ fuel : Nat, bound ≤ fuel →
        (∀ (adding : Bool) (s : SurfaceSet),
          loadSprite fs es fuel adding s (startFrame, fileName)
            = .ok (tiles.foldl (write adding) s)) ∧
        (∀ s1 : SurfaceSet,
          loadSprites fs { es with _loaded := true } fuel set.isNone before
              (set.getD (SurfaceSet.create es._subX es._subY)) = .ok s1 →
          loadSurfaceSet fs es fuel set
            = ({ es with _loaded := true },
               (loadSprites fs { es with _loaded := true } fuel set.isNone after
                 (tiles.foldl (write set.isNone) s1)).bind (fun s => .ok (some s)))) := by
  refine ⟨_, fun adding s t =>
      writeTile es ((Surface.create es._width es._height).loadImage fileName) adding s
        (startFrame + t.2 * Int.tdiv es._width es._subX + t.1)
        (-(t.1 * es._subX)) (-(t.2 * es._subY)), rfl, tiles_length es hsx hsy hw hh,
      ?_, ?_, max (Int.tdiv es._width es._subX).toNat (Int.tdiv es._height es._subY).toNat,
      ?_⟩
  · intro adding s t
    exact writeTile_frames es _ adding s _ _ _
  · intro adding s cleared t hcleared
    subst hcleared
    cases h : s.getFrame (startFrame + t.2 * Int.tdiv es._width es._subX + t.1) with
    | some frame =>
      have h' : mapFind s._frames (startFrame + t.2 * Int.tdiv es._width es._subX + t.1)
          = some frame := h
      refine ⟨frame.clear, ?_, ?_⟩
      · simp [getFrame, SurfaceSet.getFrame, mapFind_mapSet_same]
      · simp [writeTile, SurfaceSet.onFrame, getFrame, SurfaceSet.getFrame, h',
          mapFind_mapSet_same]
    | none =>
      have h' : mapFind s._frames (startFrame + t.2 * Int.tdiv es._width es._subX + t.1)
          = none := h
      refine ⟨Surface.create s._width s._height, ?_, ?_⟩
      · cases adding <;>
          simp [getFrame, SurfaceSet.getFrame, SurfaceSet.addFrame, h', mapFind_mapSet_same]
      · cases adding <;>
          simp [writeTile, SurfaceSet.onFrame, getFrame, SurfaceSet.getFrame,
            SurfaceSet.addFrame, h', mapFind_mapSet_same]
  · intro fuel hfuel
    constructor
    · intro adding s
      exact loadSprite_run fs es adding s startFrame fileName hfile hload hsx hsy hw hh
        fuel hfuel
    · intro s1 hbefore
      have hsub : (decide (es._subX ≠ 0) && decide (es._subY ≠ 0)) = true := by
        simp [ne_of_gt hsx, ne_of_gt hsy]
      have hnot : ¬ es._singleImage = true := by simp [hsingle]
      have hbody : ∀ adding : Bool,
          loadSprite fs { es with _loaded := true } fuel adding s1 (startFrame, fileName)
            = .ok (((List.range (Int.tdiv es._height es._subY).toNat).flatMap
                (fun (y : Nat) => (List.range (Int.tdiv es._width es._subX).toNat).map
                  (fun (x : Nat) => ((x : Int), (y : Int))))).foldl
                (fun (s : SurfaceSet) (t : Int × Int) =>
                  writeTile es ((Surface.create es._width es._height).loadImage fileName)
                    adding s (startFrame + t.2 * Int.tdiv es._width es._subX + t.1)
                    (-(t.1 * es._subX)) (-(t.2 * es._subY))) s1) := by
        intro adding
        have h := loadSprite_run fs { es with _loaded := true } adding s1 startFrame
          fileName hfile hload hsx hsy hw hh fuel hfuel
        simp only [writeTile_loaded] at h
        exact h
      have hall : ∀ (adding : Bool) (set0 : SurfaceSet),
          loadSprites fs { es with _loaded := true } fuel adding before set0 = .ok s1 →
          loadSprites fs { es with _loaded := true } fuel adding
              (before ++ (startFrame, fileName) :: after) set0
            = loadSprites fs { es with _loaded := true } fuel adding after
                (((List.range (Int.tdiv es._height es._subY).toNat).flatMap
                  (fun (y : Nat) => (List.range (Int.tdiv es._width es._subX).toNat).map
                    (fun (x : Nat) => ((x : Int), (y : Int))))).foldl
                  (fun (s : SurfaceSet) (t : Int × Int) =>
                    writeTile es ((Surface.create es._width es._height).loadImage fileName)
                      adding s (startFrame + t.2 * Int.tdiv es._width es._subX + t.1)
                      (-(t.1 * es._subX)) (-(t.2 * es._subY))) s1) := by
        intro adding set0 h0
        rw [loadSprites_append, h0]
        simp only [Res.bind, loadSprites, hbody]
      unfold loadSurfaceSet
      rw [if_neg hnot]
      cases set with
      | none =>
        have h := hall true (SurfaceSet.create es._subX es._subY) hbefore
        simp only [hsub, if_true, hentries, h]
        rfl
      | some set0 =>
        have h := hall false set0 hbefore
        simp only [hentries, h]
        rfl

/-- Witness of C2: the 5 x 4 sheet at frame 10 cut into 2 x 2 tiles gives
`(5 / 2) * (4 / 2) = 4` tiles. Given no set, `loadSurfaceSet` returns the frames 10 to 13,
each a new frame with the sheet blitted at `(0, 0)`, `(-2, 0)`, `(0, -2)` and `(-2, -2)`; given
a set with a frame at 11, that frame is cleared and written in place and the other three
tiles go to the frames 1010, 1012 and 1013. -/
theorem loadSurfaceSet_tiles_witness :
    loadSurfaceSet Example.files Example.sheet 2 none
      = ({ Example.sheet with _loaded := true }, .ok (some Example.tiledSet)) ∧
    loadSurfaceSet Example.files Example.sheet 2 (some Example.oldSet)
      = ({ Example.sheet with _loaded := true }, .ok (some Example.retiledSet)) ∧
    ∃ (tiles : List (Int × Int)) (write : Bool → SurfaceSet → Int × Int → SurfaceSet),
      tiles = [(0, 0), (1, 0), (0, 1), (1, 1)] ∧
      (tiles.length : Int) = 4 ∧
      (∀ (adding : Bool) (s : SurfaceSet) (t : Int × Int),
        write adding s t
          = (match s.getFrame (10 + t.2 * 2 + t.1) with
             | some frame =>
               SurfaceSet.mk s._width s._height (mapSet s._frames (10 + t.2 * 2 + t.1)
                 (Surface.blitNShade frame.clear Example.sheetSurface
                   (-(t.1 * 2)) (-(t.2 * 2)) 0))
             | none =>
               SurfaceSet.mk s._width s._height (mapSet s._frames
                 (if adding then 10 + t.2 * 2 + t.1 else 10 + t.2 * 2 + t.1 + 1000)
                 (Surface.blitNShade (Surface.create s._width s._height) Example.sheetSurface
                   (-(t.1 * 2)) (-(t.2 * 2)) 0)))) ∧
      ∃ bound : Nat, ∀ fuel : Nat, bound ≤ fuel →
        loadSurfaceSet Example.files Example.sheet fuel none
          = ({ Example.sheet with _loaded := true },
             .ok (some (tiles.foldl (write true) (SurfaceSet.create 2 2)))) := by
  refine ⟨by decide, by decide, ?_⟩
  obtain ⟨tiles, write, htiles, hlen, hdata, _, bound, hrun⟩ :=
    loadSurfaceSet_tiles Example.files Example.sheet none [] [] 10 "sheet.png" rfl
      (by decide) (by decide) rfl (by decide) (by decide) (by decide) (by decide)
  refine ⟨tiles, write, by rw [htiles]; decide, by rw [hlen]; decide, hdata, bound,
    fun fuel hfuel => ?_⟩
  exact (hrun fuel hfuel).2 (SurfaceSet.create 2 2) rfl

end ExtraSprites

/-! ## Properties of `StartState::load` -/

namespace StartState

/-- C10. `StartState::load` returns 0 on every path. When `updateMods`, `loadMods` and
`loadLanguages` all complete it ends in `LOADING_SUCCESSFUL` (and `error` is left alone);
otherwise it ends in `LOADING_FAILED` with `error` the `what()` of the exception of the first
of the three that throws. Neither the absence of `splash.png` nor an `Exception` while loading
it changes the phase or the error. -/
theorem load_updates_status (env : StartEnv) (self : StartState) :
    (load env self).1 = 0 ∧
    (env.updateMods = none → env.loadMods = none → env.loadLanguages = none →
      (load env self).2.loading = .LOADING_SUCCESSFUL ∧ (load env self).2.error = self.error) ∧
    (∀ what,
      (env.updateMods = some what ∨
       (env.updateMods = none ∧ env.loadMods = some what) ∨
       (env.updateMods = none ∧ env.loadMods = none ∧ env.loadLanguages = some what)) →
      (load env self).2.loading = .LOADING_FAILED ∧ (load env self).2.error = what) ∧
    (∀ (fileExists : String → Bool) (imageError : String → Option String),
      (load { env with fileExists := fileExists, imageError := imageError } self).2.loading
        = (load env self).2.loading ∧
      (load { env with fileExists := fileExists, imageError := imageError } self).2.error
        = (load env self).2.error) := by
  have hsplash : ∀ e : StartEnv, (loadSplash e self).loading = self.loading ∧
      (loadSplash e self).error = self.error := by
    intro e
    unfold loadSplash setSplash
    split
    · split
      · split <;> simp
      · simp
    · simp
  have key : ∀ e : StartEnv,
      (load e self).1 = 0 ∧
      (load e self).2.loading
        = (if e.updateMods = none ∧ e.loadMods = none ∧ e.loadLanguages = none
            then LoadingPhase.LOADING_SUCCESSFUL else LoadingPhase.LOADING_FAILED) ∧
      (load e self).2.error
        = (match e.updateMods, e.loadMods, e.loadLanguages with
            | some what, _, _ => what
            | none, some what, _ => what
            | none, none, some what => what
            | none, none, none => self.error) := by
    intro e
    have hs := hsplash e
    unfold load loadTry
    cases h1 : e.updateMods <;> cases h2 : e.loadMods <;> cases h3 : e.loadLanguages <;>
      simp [hs.1, hs.2]
  refine ⟨(key env).1, ?_, ?_, ?_⟩
  · intro h1 h2 h3
    rw [(key env).2.1, (key env).2.2, h1, h2, h3]
    simp
  · intro what h
    rw [(key env).2.1, (key env).2.2]
    rcases h with h | ⟨h1, h⟩ | ⟨h1, h2, h⟩
    · simp [h]
    · simp [h1, h]
    · simp [h1, h2, h]
  · intro fileExists imageError
    rw [(key env).2.1, (key env).2.2,
      (key { env with fileExists := fileExists, imageError := imageError }).2.1,
      (key { env with fileExists := fileExists, imageError := imageError }).2.2]
    exact ⟨rfl, rfl⟩

/-- Witness of C10: every step completes although `splash.png` fails to load, and a run in
which `loadMods` throws. -/
theorem load_updates_status_witness :
    ((load ⟨none, fun _ => true, fun _ => some "bad image", none, none⟩
        ⟨.LOADING_STARTED, "", none, false⟩).2.loading = .LOADING_SUCCESSFUL ∧
      (load ⟨none, fun _ => true, fun _ => some "bad image", none, none⟩
        ⟨.LOADING_STARTED, "", none, false⟩).2.error = "") ∧
    ((load ⟨none, fun _ => false, fun _ => none, some "no master mod", none⟩
        ⟨.LOADING_STARTED, "", none, false⟩).2.loading = .LOADING_FAILED ∧
      (load ⟨none, fun _ => false, fun _ => none, some "no master mod", none⟩
        ⟨.LOADING_STARTED, "", none, false⟩).2.error = "no master mod") :=
  ⟨(load_updates_status ⟨none, fun _ => true, fun _ => some "bad image", none, none⟩
      ⟨.LOADING_STARTED, "", none, false⟩).2.1 rfl rfl rfl,
   (load_updates_status ⟨none, fun _ => false, fun _ => none, some "no master mod", none⟩
      ⟨.LOADING_STARTED, "", none, false⟩).2.2.1 "no master mod" (Or.inr (Or.inl ⟨rfl, rfl⟩))⟩

end StartState

/-! ## Properties of `GeoscapeEventState::eventLogic` -/

namespace GeoscapeEventState

theorem bind_eq_ok {α β : Type} {r : Res α} {f : α → Res β} {b : β}
    (h : r.bind f = .ok b) : ∃ a, r = .ok a ∧ f a = .ok b := by
  cases r with
  | ok a => exact ⟨a, rfl, h⟩
  | thrown w => simp [Res.bind] at h
  | undefined => simp [Res.bind] at h
  | outOfFuel => simp [Res.bind] at h

theorem vectorAt_eq_ok {α : Type} {list : List α} {i : Int} {a : α}
    (h : vectorAt list i = .ok a) : list[i.toNat]? = some a := by
  unfold vectorAt at h
  split at h
  · rename_i a' ha
    simp only [Res.ok.injEq] at h
    rw [ha, h]
  · simp at h

/-- The region rule that lines 93 to 117 of `eventLogic` pick: null when the region list is
empty, otherwise what `getRegion` returns for the name at the index drawn from the random
number generator. -/
theorem pickRegion_ok {mod : Mod} {lang : Language} {rule : RuleEvent} {w w1 : EventWorld}
    {regionRule : Option RuleRegion}
    (h : pickRegion mod lang rule w = .ok (regionRule, w1)) :
    w1.save = w.save ∧ w1._researchName = w._researchName ∧
    regionRule
      = (if rule.regionList = [] then none
         else (rule.regionList[(RNG.generate w.rng 0
                ((rule.regionList.length : Int) - 1)).1.toNat]?).bind mod.getRegion) := by
  unfold pickRegion at h
  by_cases hl : rule.regionList = []
  · simp only [hl, ne_eq, not_true_eq_false, if_false, Res.ok.injEq, Prod.mk.injEq] at h
    obtain ⟨h1, h2⟩ := h
    subst h1 h2
    simp [hl]
  · simp only [ne_eq, hl, not_false_eq_true, if_true] at h
    obtain ⟨regionName, hat, h⟩ := bind_eq_ok h
    have hname := vectorAt_eq_ok hat
    obtain ⟨⟨place, rng⟩, _, h⟩ := bind_eq_ok h
    simp only [Res.ok.injEq, Prod.mk.injEq] at h
    obtain ⟨h1, h2⟩ := h
    subst h1 h2
    simp [hl, hname]

theorem addActivityToRegion_spec (regionRule : RuleRegion) (points : Int) :
    ∀ regions : List Region,
      ((∀ region ∈ regions, region.rules ≠ regionRule) ∧
        addActivityToRegion regionRule points regions = regions) ∨
      (∃ before region after, regions = before ++ region :: after ∧
        (∀ r ∈ before, r.rules ≠ regionRule) ∧ region.rules = regionRule ∧
        addActivityToRegion regionRule points regions
          = before ++ region.addActivityXcom points :: after) := by
  intro regions
  induction regions with
  | nil => left; simp [addActivityToRegion]
  | cons r t ih =>
    by_cases hr : r.rules = regionRule
    · right
      exact ⟨[], r, t, rfl, by simp, hr, by simp [addActivityToRegion, hr]⟩
    · rcases ih with ⟨hnone, heq⟩ | ⟨before, region, after, hsplit, hbefore, hregion, heq⟩
      · left
        refine ⟨?_, by simp [addActivityToRegion, hr, heq]⟩
        intro region hmem
        rcases List.mem_cons.1 hmem with h | h
        · rw [h]; exact hr
        · exact hnone region h
      · right
        refine ⟨r :: before, region, after, by simp [hsplit], ?_, hregion,
          by simp [addActivityToRegion, hr, heq]⟩
        intro x hx
        rcases List.mem_cons.1 hx with h | h
        · rw [h]; exact hr
        · exact hbefore x h

theorem eventLogicScore_ok {mod : Mod} {lang : Language} {rule : RuleEvent} {w w1 : EventWorld}
    (h : eventLogicScore mod lang rule w = .ok w1) :
    ∃ w0, w0.save = w.save ∧ w0._researchName = w._researchName ∧
      w1 = giveScore rule
        (if rule.regionList = [] then none
         else (rule.regionList[(RNG.generate w.rng 0
                ((rule.regionList.length : Int) - 1)).1.toNat]?).bind mod.getRegion) w0 := by
  unfold eventLogicScore at h
  split at h
  · simp at h
  · obtain ⟨⟨regionRule, w0⟩, hpick, h⟩ := bind_eq_ok h
    obtain ⟨hs, hn, hr⟩ := pickRegion_ok hpick
    simp only [Res.ok.injEq] at h
    exact ⟨w0, hs, hn, by rw [← h, hr]⟩

/-- C6, as amended. The state after step 1 of `eventLogic` (give/take score points), where
`picked` is the region rule picked before it: null when the region list is empty, otherwise
what `getRegion` returns for the name at the drawn index, which may be null as well. When
`picked` is null the research score grows by exactly `getPoints()` and the regions are as
before; when it is a rule the research score is as before and either no saved region has
these rules and the regions are as before, or the first saved region with these rules has the
points added to its XCOM activity and every other region is as before. -/
theorem eventLogicScore_points (mod : Mod) (lang : Language) (rule : RuleEvent)
    (w w1 : EventWorld) (h : eventLogicScore mod lang rule w = .ok w1) :
    ∃ picked : Option RuleRegion,
      picked = (if rule.regionList = [] then none
         else (rule.regionList[(RNG.generate w.rng 0
                ((rule.regionList.length : Int) - 1)).1.toNat]?).bind mod.getRegion) ∧
      (picked = none →
        w1.save.researchScore = w.save.researchScore + rule.points ∧
        w1.save.regions = w.save.regions) ∧
      (∀ regionRule, picked = some regionRule →
        w1.save.researchScore = w.save.researchScore ∧
        (((∀ region ∈ w.save.regions, region.rules ≠ regionRule) ∧
            w1.save.regions = w.save.regions) ∨
          (∃ before region after, w.save.regions = before ++ region :: after ∧
            (∀ r ∈ before, r.rules ≠ regionRule) ∧ region.rules = regionRule ∧
            w1.save.regions = before ++ region.addActivityXcom rule.points :: after))) := by
  obtain ⟨w0, hs, _, hw1⟩ := eventLogicScore_ok h
  refine ⟨_, rfl, ?_, ?_⟩
  · intro hp
    rw [hw1, hp]
    simp [giveScore, SavedGame.addResearchScore, hs]
  · intro regionRule hp
    rw [hw1, hp]
    constructor
    · simp [giveScore, hs]
    · simp only [giveScore, hs]
      exact addActivityToRegion_spec regionRule rule.points w.save.regions

/-- Witness of C6 as amended: the event in Europe adds its 5 points to the second saved
region, the first one with the rules of Europe. -/
theorem eventLogicScore_points_witness :
    ∃ picked : Option RuleRegion,
      picked = (if Example.richEvent.regionList = [] then none
         else (Example.richEvent.regionList[(RNG.generate Example.world.rng 0
                ((Example.richEvent.regionList.length : Int) - 1)).1.toNat]?).bind
                  Example.mod.getRegion) ∧
      (picked = none →
        Example.scoredWorld.save.researchScore
          = Example.world.save.researchScore + Example.richEvent.points ∧
        Example.scoredWorld.save.regions = Example.world.save.regions) ∧
      (∀ regionRule, picked = some regionRule →
        Example.scoredWorld.save.researchScore = Example.world.save.researchScore ∧
        (((∀ region ∈ Example.world.save.regions, region.rules ≠ regionRule) ∧
            Example.scoredWorld.save.regions = Example.world.save.regions) ∨
          (∃ before region after, Example.world.save.regions = before ++ region :: after ∧
            (∀ r ∈ before, r.rules ≠ regionRule) ∧ region.rules = regionRule ∧
            Example.scoredWorld.save.regions
              = before ++ region.addActivityXcom Example.richEvent.points :: after))) :=
  eventLogicScore_points Example.mod Example.language Example.richEvent Example.world
    Example.scoredWorld (by decide)

/-- Counterexample to C6 as stated: the region list of the event holds one name, so it is not
empty, the name resolves to no region rule, and step 1 of `eventLogic` raises the research
score from 0 to 5 and leaves the regions alone; the whole of `eventLogic` ends with that score
as well. -/
theorem eventLogicScore_nonempty_list_counterexample :
    Example.unnamedRegionEvent.regionList ≠ [] ∧
    Example.world.save.researchScore = 0 ∧
    Example.unnamedWorld.save.researchScore = 5 ∧
    Example.unnamedWorld.save.regions = Example.world.save.regions ∧
    eventLogicScore Example.mod Example.language Example.unnamedRegionEvent Example.world
      = .ok Example.unnamedWorld ∧
    eventLogic Example.mod Example.language Example.unnamedRegionEvent Example.world
      = .ok Example.unnamedWorld := by
  refine ⟨by decide, by decide, by decide, by decide, by decide, by decide⟩

theorem mapFind_eq_none_iff {κ α : Type} [DecidableEq κ] (m : List (κ × α)) (k : κ) :
    mapFind m k = none ↔ k ∉ m.map Prod.fst := by
  induction m with
  | nil => simp [mapFind]
  | cons e t ih =>
    obtain ⟨k', v'⟩ := e
    by_cases h : k' = k
    · simp [mapFind, h]
    · simp [mapFind, h, ih, Ne.symm h]

theorem mapSet_keys {κ α : Type} [DecidableEq κ] (m : List (κ × α)) (k : κ) (v : α) :
    (mapSet m k v).map Prod.fst
      = if k ∈ m.map Prod.fst then m.map Prod.fst else m.map Prod.fst ++ [k] := by
  induction m with
  | nil => simp [mapSet]
  | cons e t ih =>
    obtain ⟨k', v'⟩ := e
    by_cases h : k' = k
    · simp [mapSet, h]
    · by_cases hk : k ∈ t.map Prod.fst
      · simp only [mapSet, h, if_false, List.map_cons, ih, hk, if_true, List.mem_cons, or_true]
      · simp only [mapSet, h, if_false, List.map_cons, ih, hk, List.mem_cons, Ne.symm h,
          or_self, List.cons_append]

theorem mapFind_of_mem {κ α : Type} [DecidableEq κ] (m : List (κ × α)) (k : κ) (v : α)
    (hnd : (m.map Prod.fst).Nodup) (h : (k, v) ∈ m) : mapFind m k = some v := by
  induction m with
  | nil => simp at h
  | cons e t ih =>
    obtain ⟨k', v'⟩ := e
    simp only [List.map_cons, List.nodup_cons] at hnd
    rcases List.mem_cons.1 h with h | h
    · simp only [Prod.mk.injEq] at h
      simp [mapFind, h.1, h.2]
    · have hk : k ∈ t.map Prod.fst := List.mem_map.2 ⟨(k, v), h, rfl⟩
      have hne : k' ≠ k := fun heq => hnd.1 (heq ▸ hk)
      simp [mapFind, hne, ih hnd.2 h]

theorem addItem_spec (m : List (String × Int)) (k : String) (q : Int)
    (hnd : (m.map Prod.fst).Nodup) :
    ((addItem m k q).map Prod.fst).Nodup ∧
    ∀ T, (T ∈ (addItem m k q).map Prod.fst ↔ T ∈ m.map Prod.fst ∨ T = k) ∧
      (mapFind (addItem m k q) T).getD 0
        = (mapFind m T).getD 0 + (if k = T then q else 0) := by
  unfold addItem
  refine ⟨?_, fun T => ⟨?_, ?_⟩⟩
  · rw [mapSet_keys]
    by_cases hk : k ∈ m.map Prod.fst
    · simpa [hk] using hnd
    · simp only [hk, if_false]
      exact List.Nodup.append hnd (List.nodup_singleton k) (by simpa using hk)
  · rw [mapSet_keys]
    by_cases hk : k ∈ m.map Prod.fst
    · simp only [hk, if_true]
      constructor
      · exact fun h => Or.inl h
      · rintro (h | h)
        · exact h
        · rw [h]; exact hk
    · simp [hk]
  · by_cases hT : k = T
    · subst hT
      simp [mapFind_mapSet_same]
    · rw [mapFind_mapSet_other _ _ _ _ (Ne.symm hT)]
      simp [hT]

theorem foldl_addItem_spec :
    ∀ (cs : List (String × Int)) (m : List (String × Int)), (m.map Prod.fst).Nodup →
      ((cs.foldl (fun m c => addItem m c.1 c.2) m).map Prod.fst).Nodup ∧
      ∀ T, (T ∈ (cs.foldl (fun m c => addItem m c.1 c.2) m).map Prod.fst
              ↔ T ∈ m.map Prod.fst ∨ T ∈ cs.map Prod.fst) ∧
        (mapFind (cs.foldl (fun m c => addItem m c.1 c.2) m) T).getD 0
          = (mapFind m T).getD 0
            + ((cs.filter (fun c => decide (c.1 = T))).map Prod.snd).sum := by
  intro cs
  induction cs with
  | nil => intro m hnd; simp [hnd]
  | cons c t ih =>
    intro m hnd
    obtain ⟨hnd1, h1⟩ := addItem_spec m c.1 c.2 hnd
    obtain ⟨hnd2, h2⟩ := ih (addItem m c.1 c.2) hnd1
    refine ⟨by simpa using hnd2, fun T => ⟨?_, ?_⟩⟩
    · simp only [List.foldl_cons, (h2 T).1, (h1 T).1, List.map_cons, List.mem_cons]
      tauto
    · simp only [List.foldl_cons, (h2 T).2, (h1 T).2]
      by_cases hT : c.1 = T
      · simp [List.filter_cons, hT]
        ring
      · simp [List.filter_cons, hT]

theorem addEveryMultiItem_eq (mod : Mod) :
    ∀ (l : List (String × Int)) (m : List (String × Int)),
      addEveryMultiItem mod l m
        = (l.filterMap (fun pair => (mod.getItem pair.1).map (fun r => (r.type, pair.2)))).foldl
            (fun m c => addItem m c.1 c.2) m := by
  intro l
  induction l with
  | nil => intro m; rfl
  | cons pair t ih =>
    intro m
    cases hi : mod.getItem pair.1 with
    | none => simp [addEveryMultiItem, hi, ih]
    | some r => simp [addEveryMultiItem, hi, ih]

theorem addEveryItem_eq (mod : Mod) :
    ∀ (l : List String) (m : List (String × Int)),
      addEveryItem mod l m
        = (l.filterMap (fun name => (mod.getItem name).map (fun r => (r.type, (1 : Int))))).foldl
            (fun m c => addItem m c.1 c.2) m := by
  intro l
  induction l with
  | nil => intro m; rfl
  | cons name t ih =>
    intro m
    cases hi : mod.getItem name with
    | none => simp [addEveryItem, hi, ih]
    | some r => simp [addEveryItem, hi, ih]

theorem addRandomItem_ok {mod : Mod} {rule : RuleEvent} {items items' : List (String × Int)}
    {rng rng' : List Nat} (h : addRandomItem mod rule items rng = .ok (items', rng')) :
    ∃ pick : Option String,
      (rule.randomItemList = [] → pick = none) ∧
      (rule.randomItemList ≠ [] → ∃ name ∈ rule.randomItemList, pick = some name) ∧
      items' = ((pick.bind mod.getItem).toList.map (fun r => (r.type, (1 : Int)))).foldl
        (fun m c => addItem m c.1 c.2) items := by
  unfold addRandomItem at h
  by_cases hl : rule.randomItemList = []
  · simp only [hl, ne_eq, not_true_eq_false, if_false, Res.ok.injEq, Prod.mk.injEq] at h
    exact ⟨none, fun _ => rfl, fun hne => absurd hl hne, by simp [h.1]⟩
  · simp only [ne_eq, hl, not_false_eq_true, if_true] at h
    obtain ⟨itemName, hat, h⟩ := bind_eq_ok h
    have hmem : itemName ∈ rule.randomItemList :=
      List.getElem?_mem (vectorAt_eq_ok hat)
    refine ⟨some itemName, fun he => absurd he hl, fun _ => ⟨itemName, hmem, rfl⟩, ?_⟩
    cases hi : mod.getItem itemName with
    | none =>
      simp only [hi, Res.ok.injEq, Prod.mk.injEq] at h
      simp [hi, h.1]
    | some r =>
      simp only [hi, Res.ok.injEq, Prod.mk.injEq] at h
      simp [hi, h.1]

theorem addWeightedItem_ok (mod : Mod) (rule : RuleEvent) (items : List (String × Int))
    (rng : List Nat) :
    ∃ pick : Option String,
      (rule.weightedItemList.empty = true → pick = none) ∧
      (rule.weightedItemList.empty = false →
        pick = some (rule.weightedItemList.choose rng).1) ∧
      (addWeightedItem mod rule items rng).1
        = ((pick.bind mod.getItem).toList.map (fun r => (r.type, (1 : Int)))).foldl
            (fun m c => addItem m c.1 c.2) items := by
  unfold addWeightedItem
  cases he : rule.weightedItemList.empty with
  | true => exact ⟨none, fun _ => rfl, fun h => by simp at h, by simp⟩
  | false =>
    refine ⟨some (rule.weightedItemList.choose rng).1, fun h => by simp at h, fun _ => rfl, ?_⟩
    cases hi : mod.getItem (rule.weightedItemList.choose rng).1 with
    | none => simp [hi]
    | some r => simp [hi]

theorem pushTransfers_eq :
    ∀ (items : List (String × Int)) (transfers : List Transfer),
      pushTransfers items transfers
        = transfers ++ items.map (fun ti => ({ hours := 1, itemId := ti.1, itemQty := ti.2 } : Transfer)) := by
  intro items
  induction items with
  | nil => intro transfers; simp [pushTransfers]
  | cons ti t ih =>
    intro transfers
    simp [pushTransfers, ih, Transfer.new, Transfer.setItems]

theorem sum_multi_contributions (mod : Mod) (T : String) :
    ∀ l : List (String × Int),
      (((l.filterMap (fun pair => (mod.getItem pair.1).map (fun r => (r.type, pair.2)))).filter
          (fun c => decide (c.1 = T))).map Prod.snd).sum
        = ((l.filter (fun pair =>
            decide ((mod.getItem pair.1).map RuleItem.type = some T))).map Prod.snd).sum := by
  intro l
  induction l with
  | nil => rfl
  | cons pair t ih =>
    cases hi : mod.getItem pair.1 with
    | none => simp [List.filterMap_cons, List.filter_cons, hi, ih]
    | some r =>
      by_cases hT : r.type = T
      · simp [List.filterMap_cons, List.filter_cons, hi, hT, ih]
      · simp [List.filterMap_cons, List.filter_cons, hi, hT, ih]

theorem sum_every_contributions (mod : Mod) (T : String) :
    ∀ l : List String,
      (((l.filterMap (fun name => (mod.getItem name).map (fun r => (r.type, (1 : Int))))).filter
          (fun c => decide (c.1 = T))).map Prod.snd).sum
        = ((l.filter (fun name =>
            decide ((mod.getItem name).map RuleItem.type = some T))).length : Int) := by
  intro l
  induction l with
  | nil => rfl
  | cons name t ih =>
    cases hi : mod.getItem name with
    | none => simp [List.filterMap_cons, List.filter_cons, hi, ih]
    | some r =>
      by_cases hT : r.type = T
      · simp [List.filterMap_cons, List.filter_cons, hi, hT, ih]
        ring
      · simp [List.filterMap_cons, List.filter_cons, hi, hT, ih]

theorem sum_pick_contribution (mod : Mod) (T : String) (pick : Option String) :
    ((((pick.bind mod.getItem).toList.map (fun r => (r.type, (1 : Int)))).filter
        (fun c => decide (c.1 = T))).map Prod.snd).sum
      = (if (pick.bind mod.getItem).map RuleItem.type = some T then 1 else 0) := by
  cases hp : pick.bind mod.getItem with
  | none => simp
  | some r =>
    by_cases hT : r.type = T
    · simp [List.filter_cons, hT]
    · simp [List.filter_cons, hT]

theorem mem_pick_contribution (mod : Mod) (T : String) (pick : Option String) :
    T ∈ (((pick.bind mod.getItem).toList.map (fun r => (r.type, (1 : Int)))).map Prod.fst)
      ↔ (pick.bind mod.getItem).map RuleItem.type = some T := by
  cases hp : pick.bind mod.getItem with
  | none => simp
  | some r => simp [eq_comm]

theorem mem_multi_contributions (mod : Mod) (T : String) (l : List (String × Int)) :
    T ∈ (l.filterMap (fun pair => (mod.getItem pair.1).map (fun r => (r.type, pair.2)))).map
          Prod.fst
      ↔ ∃ pair ∈ l, (mod.getItem pair.1).map RuleItem.type = some T := by
  simp only [List.mem_map, List.mem_filterMap, Option.map_eq_some']
  constructor
  · rintro ⟨c, ⟨pair, hmem, r, hr, rfl⟩, rfl⟩
    exact ⟨pair, hmem, r, hr, rfl⟩
  · rintro ⟨pair, hmem, r, hr, rfl⟩
    exact ⟨(r.type, pair.2), ⟨pair, hmem, r, hr, rfl⟩, rfl⟩

theorem mem_every_contributions (mod : Mod) (T : String) (l : List String) :
    T ∈ (l.filterMap (fun name => (mod.getItem name).map (fun r => (r.type, (1 : Int))))).map
          Prod.fst
      ↔ ∃ name ∈ l, (mod.getItem name).map RuleItem.type = some T := by
  simp only [List.mem_map, List.mem_filterMap, Option.map_eq_some']
  constructor
  · rintro ⟨c, ⟨name, hmem, r, hr, rfl⟩, rfl⟩
    exact ⟨name, hmem, r, hr, rfl⟩
  · rintro ⟨name, hmem, r, hr, rfl⟩
    exact ⟨(r.type, 1), ⟨name, hmem, r, hr, rfl⟩, rfl⟩

theorem transferItems_ok {mod : Mod} {rule : RuleEvent} {w w' : EventWorld}
    (h : transferItems mod rule w = .ok w') :
    ∃ (hq : Base) (bases : List Base) (items : List (String × Int))
      (randomPick weightedPick : Option String),
      w.save.bases = hq :: bases ∧
      w'.save = { w.save with
        bases := { hq with
          transfers := hq.transfers ++ items.map
            (fun ti => ({ hours := 1, itemId := ti.1, itemQty := ti.2 } : Transfer)) } :: bases } ∧
      w'._researchName = w._researchName ∧
      (items.map Prod.fst).Nodup ∧
      (rule.randomItemList = [] → randomPick = none) ∧
      (rule.randomItemList ≠ [] → ∃ name ∈ rule.randomItemList, randomPick = some name) ∧
      (rule.weightedItemList.empty = true → weightedPick = none) ∧
      (rule.weightedItemList.empty = false →
        ∃ rng, weightedPick = some (rule.weightedItemList.choose rng).1) ∧
      ∀ T : String,
        (T ∈ items.map Prod.fst ↔
          (∃ pair ∈ rule.everyMultiItemList,
            (mod.getItem pair.1).map RuleItem.type = some T) ∨
          (∃ name ∈ rule.everyItemList, (mod.getItem name).map RuleItem.type = some T) ∨
          (randomPick.bind mod.getItem).map RuleItem.type = some T ∨
          (weightedPick.bind mod.getItem).map RuleItem.type = some T) ∧
        ∀ q, (T, q) ∈ items →
          q = ((rule.everyMultiItemList.filter (fun pair =>
                  decide ((mod.getItem pair.1).map RuleItem.type = some T))).map Prod.snd).sum
              + ((rule.everyItemList.filter (fun name =>
                  decide ((mod.getItem name).map RuleItem.type = some T))).length : Int)
              + (if (randomPick.bind mod.getItem).map RuleItem.type = some T then 1 else 0)
              + (if (weightedPick.bind mod.getItem).map RuleItem.type = some T then 1 else 0) := by
  unfold transferItems at h
  obtain ⟨⟨items1, rng1⟩, hrand, h⟩ := bind_eq_ok h
  obtain ⟨randomPick, hr1, hr2, hitems1⟩ := addRandomItem_ok hrand
  obtain ⟨weightedPick, hw1, hw2, hitems2⟩ := addWeightedItem_ok mod rule items1 rng1
  simp only at h
  cases hb : w.save.bases with
  | nil =>
    rw [hb] at h
    simp at h
  | cons hq bases =>
    rw [hb] at h
    simp only [Res.ok.injEq] at h
    subst h
    have hfinal : (addWeightedItem mod rule items1 rng1).1
        = ((rule.everyMultiItemList.filterMap
              (fun pair => (mod.getItem pair.1).map (fun r => (r.type, pair.2))))
            ++ (rule.everyItemList.filterMap
              (fun name => (mod.getItem name).map (fun r => (r.type, (1 : Int)))))
            ++ ((randomPick.bind mod.getItem).toList.map (fun r => (r.type, (1 : Int))))
            ++ ((weightedPick.bind mod.getItem).toList.map (fun r => (r.type, (1 : Int))))).foldl
          (fun m c => addItem m c.1 c.2) [] := by
      rw [hitems2, hitems1, addEveryItem_eq, addEveryMultiItem_eq]
      simp only [List.foldl_append]
    obtain ⟨hnd, hT⟩ := foldl_addItem_spec
      ((rule.everyMultiItemList.filterMap
          (fun pair => (mod.getItem pair.1).map (fun r => (r.type, pair.2))))
        ++ (rule.everyItemList.filterMap
          (fun name => (mod.getItem name).map (fun r => (r.type, (1 : Int)))))
        ++ ((randomPick.bind mod.getItem).toList.map (fun r => (r.type, (1 : Int))))
        ++ ((weightedPick.bind mod.getItem).toList.map (fun r => (r.type, (1 : Int)))))
      [] (by simp)
    rw [← hfinal] at hnd hT
    have hperm : List.Perm (stringMapEntries (addWeightedItem mod rule items1 rng1).1)
        (addWeightedItem mod rule items1 rng1).1 := List.perm_insertionSort _ _
    refine ⟨hq, bases, stringMapEntries (addWeightedItem mod rule items1 rng1).1,
      randomPick, weightedPick, rfl, ?_, rfl, ?_, hr1, hr2, hw1,
      fun he => ⟨rng1, hw2 he⟩, ?_⟩
    · simp [pushTransfers_eq]
    · exact (List.Perm.nodup_iff (List.Perm.map Prod.fst hperm)).2 hnd
    · intro T
      constructor
      · rw [List.Perm.mem_iff (List.Perm.map Prod.fst hperm), (hT T).1]
        simp only [List.map_append, List.mem_append, mem_multi_contributions,
          mem_every_contributions, mem_pick_contribution, List.map_nil, List.not_mem_nil,
          false_or, or_assoc]
      · intro q hq
        have hmem : (T, q) ∈ (addWeightedItem mod rule items1 rng1).1 :=
          (List.Perm.mem_iff hperm).1 hq
        have hfind := mapFind_of_mem _ T q hnd hmem
        have hval := (hT T).2
        rw [hfind] at hval
        simp only [Option.getD_some, mapFind, Option.getD_none, zero_add, List.filter_append,
          List.map_append, List.sum_append, sum_multi_contributions, sum_every_contributions,
          sum_pick_contribution] at hval
        exact hval

theorem possibilities_ok {mod : Mod} {save : SavedGame} :
    ∀ {l : List String} {ps : List RuleResearch}, possibilities mod save l = .ok ps →
      (∀ name ∈ l, ∃ r, mod.getResearch name = some r) ∧
      ps = (l.filterMap mod.getResearch).filter (fun r => !save.isResearched r) := by
  intro l
  induction l with
  | nil =>
    intro ps h
    simp only [possibilities, Res.ok.injEq] at h
    simp [← h]
  | cons name t ih =>
    intro ps h
    unfold possibilities at h
    cases hr : mod.getResearch name with
    | none => simp [hr] at h
    | some r =>
      simp only [hr] at h
      obtain ⟨later, hlater, h⟩ := bind_eq_ok h
      obtain ⟨hall, heq⟩ := ih hlater
      simp only [Res.ok.injEq] at h
      refine ⟨?_, ?_⟩
      · intro n hn
        rcases List.mem_cons.1 hn with hn | hn
        · exact ⟨r, by rw [hn, hr]⟩
        · exact hall n hn
      · rw [← h, heq]
        by_cases hres : save.isResearched r = true
        · simp [List.filterMap_cons, hr, List.filter_cons, hres]
        · simp [List.filterMap_cons, hr, List.filter_cons, hres]

theorem bonusResearch_ok {mod : Mod} {rule : RuleEvent} {w w' : EventWorld}
    (h : bonusResearch mod rule w = .ok w') :
    (∀ name ∈ rule.researchList, ∃ r, mod.getResearch name = some r) ∧
    w'.save.funds = w.save.funds ∧ w'.save.bases = w.save.bases ∧
    (((rule.researchList.filterMap mod.getResearch).filter
        (fun r => !w.save.isResearched r)) = [] →
      w'.save.finishedResearch = w.save.finishedResearch ∧
      w'._researchName = w._researchName) ∧
    (((rule.researchList.filterMap mod.getResearch).filter
        (fun r => !w.save.isResearched r)) ≠ [] →
      ∃ picked,
        ((rule.researchList.filterMap mod.getResearch).filter
          (fun r => !w.save.isResearched r))[(RNG.generate w.rng 0
            ((((rule.researchList.filterMap mod.getResearch).filter
              (fun r => !w.save.isResearched r)).length : Int) - 1)).1.toNat]? = some picked ∧
        (picked.lookup = "" →
          w'.save.finishedResearch = w.save.finishedResearch ++ [picked] ∧
          w'._researchName = picked.name) ∧
        (picked.lookup ≠ "" →
          ∃ lookupResearch, mod.getResearch picked.lookup = some lookupResearch ∧
            w'.save.finishedResearch = w.save.finishedResearch ++ [picked, lookupResearch] ∧
            w'._researchName = lookupResearch.name)) := by
  unfold bonusResearch at h
  obtain ⟨ps, hps, h⟩ := bind_eq_ok h
  obtain ⟨hall, heq⟩ := possibilities_ok hps
  rw [← heq]
  by_cases hempty : ps = []
  · simp only [hempty, ne_eq, not_true_eq_false, if_false, Res.ok.injEq] at h
    subst h
    exact ⟨hall, rfl, rfl, fun _ => ⟨rfl, rfl⟩, fun hne => absurd hempty hne⟩
  · simp only [ne_eq, hempty, not_false_eq_true, if_true] at h
    obtain ⟨eventResearch, hat, h⟩ := bind_eq_ok h
    have hpicked := vectorAt_eq_ok hat
    by_cases hlookup : eventResearch.lookup = ""
    · simp only [hlookup, ne_eq, not_true_eq_false, if_false, Res.ok.injEq] at h
      subst h
      refine ⟨hall, rfl, rfl, fun he => absurd he hempty, fun _ => ⟨eventResearch, hpicked, ?_, ?_⟩⟩
      · intro _
        exact ⟨rfl, rfl⟩
      · intro hne
        exact absurd hlookup hne
    · simp only [ne_eq, hlookup, not_false_eq_true, if_true] at h
      cases hl : mod.getResearch eventResearch.lookup with
      | none => simp [hl] at h
      | some lookupResearch =>
        simp only [hl, Res.ok.injEq] at h
        subst h
        refine ⟨hall, rfl, rfl, fun he => absurd he hempty,
          fun _ => ⟨eventResearch, hpicked, ?_, ?_⟩⟩
        · intro he
          exact absurd he hlookup
        · intro _
          exact ⟨lookupResearch, hl, by simp [SavedGame.addFinishedResearch], rfl⟩

theorem giveScore_frame (rule : RuleEvent) (regionRule : Option RuleRegion) (w : EventWorld) :
    (giveScore rule regionRule w).save.funds = w.save.funds ∧
    (giveScore rule regionRule w).save.bases = w.save.bases ∧
    (giveScore rule regionRule w).save.discovered = w.save.discovered ∧
    (giveScore rule regionRule w).save.finishedResearch = w.save.finishedResearch ∧
    (giveScore rule regionRule w)._researchName = w._researchName := by
  cases regionRule <;> simp [giveScore, SavedGame.addResearchScore]

/-- The steps of a run of `eventLogic` that returns: the world after step 1, and the world
after step 3, which step 4 starts from. -/
theorem eventLogic_ok {mod : Mod} {lang : Language} {rule : RuleEvent} {w w' : EventWorld}
    (h : eventLogic mod lang rule w = .ok w') :
    ∃ w1 w3, eventLogicScore mod lang rule w = .ok w1 ∧
      transferItems mod rule (giveFunds rule w1) = .ok w3 ∧
      bonusResearch mod rule w3 = .ok w' ∧
      w1.save.funds = w.save.funds ∧ w1.save.bases = w.save.bases ∧
      w1.save.discovered = w.save.discovered ∧
      w1.save.finishedResearch = w.save.finishedResearch ∧
      w1._researchName = w._researchName := by
  unfold eventLogic at h
  obtain ⟨w1, h1, h⟩ := bind_eq_ok h
  obtain ⟨w3, h3, h⟩ := bind_eq_ok h
  obtain ⟨w0, hs, hn, hw1⟩ := eventLogicScore_ok h1
  obtain ⟨f1, f2, f3, f4, f5⟩ := giveScore_frame rule
    (if rule.regionList = [] then none
      else (rule.regionList[(RNG.generate w.rng 0
            ((rule.regionList.length : Int) - 1)).1.toNat]?).bind mod.getRegion) w0
  rw [← hw1] at f1 f2 f3 f4 f5
  exact ⟨w1, w3, h1, h3, h, by rw [f1, hs], by rw [f2, hs], by rw [f3, hs], by rw [f4, hs],
    by rw [f5, hn]⟩

theorem vectorAt_generate {α : Type} (l : List α) (rng : List Nat) (hl : l ≠ []) :
    ∃ a ∈ l, vectorAt l (RNG.generate rng 0 ((l.length : Int) - 1)).1 = .ok a := by
  have hpos : 0 < l.length := List.length_pos.2 hl
  have hlen : (0 : Int) < (l.length : Int) := by exact_mod_cast hpos
  have h0 : 0 ≤ ((rng.headD 0 : Nat) : Int) % (l.length : Int) :=
    Int.emod_nonneg _ (ne_of_gt hlen)
  have h1 : ((rng.headD 0 : Nat) : Int) % (l.length : Int) < (l.length : Int) :=
    Int.emod_lt_of_pos _ hlen
  have hidx : (RNG.generate rng 0 ((l.length : Int) - 1)).1
      = ((rng.headD 0 : Nat) : Int) % (l.length : Int) := by
    simp [RNG.generate]
  have hlt : (RNG.generate rng 0 ((l.length : Int) - 1)).1.toNat < l.length := by
    rw [hidx]
    omega
  refine ⟨l[(RNG.generate rng 0 ((l.length : Int) - 1)).1.toNat], List.getElem_mem _, ?_⟩
  simp [vectorAt, List.getElem?_eq_getElem hlt]

/-- A run of `eventLogic` returns when there is a first base, the names of the region list of
a city-specific event resolve, and the names of the research list and the lookups of their
rules resolve. -/
theorem eventLogic_returns (mod : Mod) (lang : Language) (rule : RuleEvent) (w : EventWorld)
    (hbases : w.save.bases ≠ [])
    (hregion : rule.citySpecific = true →
      ∀ name ∈ rule.regionList, ∃ regionRule, mod.getRegion name = some regionRule)
    (hresearch : ∀ name ∈ rule.researchList, ∃ r, mod.getResearch name = some r ∧
      (r.lookup ≠ "" → ∃ lookupResearch, mod.getResearch r.lookup = some lookupResearch)) :
    ∃ w', eventLogic mod lang rule w = .ok w' := by
  obtain ⟨hq, bases, hb⟩ : ∃ hq bases, w.save.bases = hq :: bases := by
    cases hw : w.save.bases with
    | nil => exact absurd hw hbases
    | cons hq bases => exact ⟨hq, bases, rfl⟩
  -- lines 93 to 117
  have hpick : ∃ r, pickRegion mod lang rule w = .ok r := by
    unfold pickRegion
    by_cases hl : rule.regionList = []
    · simp only [hl, ne_eq, not_true_eq_false, if_false]
      exact ⟨_, rfl⟩
    · obtain ⟨regionName, hmem, hat⟩ := vectorAt_generate rule.regionList w.rng hl
      simp only [ne_eq, hl, not_false_eq_true, if_true, hat, Res.bind]
      cases hc : rule.citySpecific with
      | false =>
        simp only [Bool.false_eq_true, if_false, Res.bind]
        exact ⟨_, rfl⟩
      | true =>
        obtain ⟨regionRule, hrr⟩ := hregion hc regionName hmem
        simp only [hrr, if_true]
        by_cases hcities : regionRule.cities = []
        · simp only [hcities, List.length_nil, gt_iff_lt, lt_self_iff_false, if_false,
            Res.bind]
          exact ⟨_, rfl⟩
        · obtain ⟨city, _, hcity⟩ := vectorAt_generate regionRule.cities
            (RNG.generate w.rng 0 ((rule.regionList.length : Int) - 1)).2 hcities
          have hpos : regionRule.cities.length > 0 := List.length_pos.2 hcities
          simp only [hpos, if_true, hcity, Res.bind]
          exact ⟨_, rfl⟩
  obtain ⟨⟨regionRule, w0⟩, hpick⟩ := hpick
  have hs0 : w0.save = w.save := (pickRegion_ok hpick).1
  have hscore : eventLogicScore mod lang rule w = .ok (giveScore rule regionRule w0) := by
    simp [eventLogicScore, hb, hpick, Res.bind]
  -- step 3
  have hitems : ∀ w2 : EventWorld, w2.save.bases = w.save.bases →
      ∃ w3, transferItems mod rule w2 = .ok w3 := by
    intro w2 hw2
    have hrandom : ∀ items, ∃ r, addRandomItem mod rule items w2.rng = .ok r := by
      intro items
      unfold addRandomItem
      by_cases hl : rule.randomItemList = []
      · simp [hl]
      · obtain ⟨itemName, _, hat⟩ := vectorAt_generate rule.randomItemList w2.rng hl
        cases hi : mod.getItem itemName with
        | none => simp [hl, hat, Res.bind, hi]
        | some r => simp [hl, hat, Res.bind, hi]
    obtain ⟨r, hr⟩ := hrandom (addEveryItem mod rule.everyItemList
      (addEveryMultiItem mod rule.everyMultiItemList []))
    simp [transferItems, hr, Res.bind, hw2, hb]
  have hgf : (giveFunds rule (giveScore rule regionRule w0)).save.bases = w.save.bases := by
    rw [← hs0]
    simp [giveFunds, SavedGame.setFunds, (giveScore_frame rule regionRule w0).2.1]
  obtain ⟨w3, h3⟩ := hitems _ hgf
  -- step 4
  have hposs : ∀ (save : SavedGame) (l : List String),
      (∀ name ∈ l, ∃ r, mod.getResearch name = some r ∧
        (r.lookup ≠ "" → ∃ lookupResearch, mod.getResearch r.lookup = some lookupResearch)) →
      ∃ ps, possibilities mod save l = .ok ps ∧
        ∀ r ∈ ps, r.lookup ≠ "" → ∃ lookupResearch,
          mod.getResearch r.lookup = some lookupResearch := by
    intro save l
    induction l with
    | nil => intro _; exact ⟨[], rfl, by simp⟩
    | cons name t ih =>
      intro hall
      obtain ⟨r, hr, hlookup⟩ := hall name (List.mem_cons_self _ _)
      obtain ⟨ps, hps, hpsl⟩ := ih (fun n hn => hall n (List.mem_cons_of_mem _ hn))
      by_cases hres : save.isResearched r = true
      · exact ⟨ps, by simp [possibilities, hr, hps, Res.bind, hres], hpsl⟩
      · refine ⟨r :: ps, by simp [possibilities, hr, hps, Res.bind, hres], ?_⟩
        intro x hx
        rcases List.mem_cons.1 hx with h | h
        · rw [h]; exact hlookup
        · exact hpsl x h
  obtain ⟨ps, hps, hpsl⟩ := hposs w3.save rule.researchList hresearch
  have h4 : ∃ w', bonusResearch mod rule w3 = .ok w' := by
    unfold bonusResearch
    by_cases hempty : ps = []
    · simp [hps, Res.bind, hempty]
    · obtain ⟨eventResearch, hmem, hat⟩ := vectorAt_generate ps w3.rng hempty
      by_cases hlookup : eventResearch.lookup = ""
      · simp [hps, Res.bind, hempty, hat, hlookup]
      · obtain ⟨lookupResearch, hl⟩ := hpsl eventResearch hmem hlookup
        simp [hps, Res.bind, hempty, hat, hlookup, hl]
  obtain ⟨w', h4⟩ := h4
  exact ⟨w', by simp [eventLogic, hscore, h3, h4, Res.bind]⟩

/-- C7. After a run of `eventLogic` that returns, the funds of the saved game are the funds
before plus `getFunds()` of the rule, whatever the region, the items and the research were. -/
theorem eventLogic_funds (mod : Mod) (lang : Language) (rule : RuleEvent) (w w' : EventWorld)
    (h : eventLogic mod lang rule w = .ok w') :
    w'.save.getFunds = w.save.getFunds + rule.funds := by
  obtain ⟨w1, w3, _, h3, h4, hf, _⟩ := eventLogic_ok h
  obtain ⟨hq, bases, items, rp, wp, _, hsave, _⟩ := transferItems_ok h3
  obtain ⟨_, hfunds, _⟩ := bonusResearch_ok h4
  simp only [SavedGame.getFunds]
  rw [hfunds, hsave]
  simp [giveFunds, SavedGame.setFunds, SavedGame.getFunds, hf]

/-- Witness of C7: the event that takes 50 funds brings the funds from 100 to 50. -/
theorem eventLogic_funds_witness :
    eventLogic Example.mod Example.language Example.richEvent Example.world
      = .ok Example.finalWorld ∧
    Example.finalWorld.save.getFunds = Example.world.save.getFunds + Example.richEvent.funds :=
  ⟨by decide,
   eventLogic_funds Example.mod Example.language Example.richEvent Example.world
     Example.finalWorld (by decide)⟩

/-- C8. After a run of `eventLogic` that returns, the bases other than the first are as
before and the transfers of the first base are the ones before followed by one transfer
arriving in 1 hour for each entry of `items`, whose item types are distinct. An item type `T`
is among them exactly when an every-multi-item entry, a name of the every-item list, the name
picked from the random list or the name picked from the weighted list resolves to an item rule
of type `T`, and its quantity is the sum of the quantities of these every-multi-item entries,
plus the number of these every-item names, plus 1 for the random pick and plus 1 for the
weighted pick when they resolve to `T`. Names that resolve to no item rule count nowhere. -/
theorem eventLogic_transfers (mod : Mod) (lang : Language) (rule : RuleEvent)
    (w w' : EventWorld) (h : eventLogic mod lang rule w = .ok w') :
    ∃ (hq : Base) (bases : List Base) (hq' : Base) (items : List (String × Int))
      (randomPick weightedPick : Option String),
      w.save.bases = hq :: bases ∧ w'.save.bases = hq' :: bases ∧
      hq'.transfers = hq.transfers ++ items.map
        (fun ti => ({ hours := 1, itemId := ti.1, itemQty := ti.2 } : Transfer)) ∧
      (items.map Prod.fst).Nodup ∧
      (rule.randomItemList = [] → randomPick = none) ∧
      (rule.randomItemList ≠ [] → ∃ name ∈ rule.randomItemList, randomPick = some name) ∧
      (rule.weightedItemList.empty = true → weightedPick = none) ∧
      (rule.weightedItemList.empty = false →
        ∃ rng, weightedPick = some (rule.weightedItemList.choose rng).1) ∧
      ∀ T : String,
        (T ∈ items.map Prod.fst ↔
          (∃ pair ∈ rule.everyMultiItemList,
            (mod.getItem pair.1).map RuleItem.type = some T) ∨
          (∃ name ∈ rule.everyItemList, (mod.getItem name).map RuleItem.type = some T) ∨
          (randomPick.bind mod.getItem).map RuleItem.type = some T ∨
          (weightedPick.bind mod.getItem).map RuleItem.type = some T) ∧
        ∀ q, (T, q) ∈ items →
          q = ((rule.everyMultiItemList.filter (fun pair =>
                  decide ((mod.getItem pair.1).map RuleItem.type = some T))).map Prod.snd).sum
              + ((rule.everyItemList.filter (fun name =>
                  decide ((mod.getItem name).map RuleItem.type = some T))).length : Int)
              + (if (randomPick.bind mod.getItem).map RuleItem.type = some T then 1 else 0)
              + (if (weightedPick.bind mod.getItem).map RuleItem.type = some T then 1 else 0) := by
  obtain ⟨w1, w3, _, h3, h4, _, hb, _⟩ := eventLogic_ok h
  obtain ⟨hq, bases, items, rp, wp, hbases, hsave, _, hnd, hr1, hr2, hw1, hw2, hT⟩ :=
    transferItems_ok h3
  obtain ⟨_, _, hbases4, _⟩ := bonusResearch_ok h4
  have hgf : (giveFunds rule w1).save.bases = w1.save.bases := by
    simp [giveFunds, SavedGame.setFunds]
  refine ⟨hq, bases, _, items, rp, wp, ?_, ?_, rfl, hnd, hr1, hr2, hw1, hw2, hT⟩
  · rw [← hb, ← hgf, hbases]
  · rw [hbases4, hsave]

/-- Witness of C8: the rich event sends 2 pistols (every-item list and random pick) and 4
rifles (2 from the every-multi-item list, 1 from the every-item list, 1 from the weighted
pick) after the transfer that was under way; the unknown item of the every-multi-item list is
sent nowhere. -/
theorem eventLogic_transfers_witness :
    eventLogic Example.mod Example.language Example.richEvent Example.world
      = .ok Example.finalWorld ∧
    ∃ (hq : Base) (bases : List Base) (hq' : Base) (items : List (String × Int))
      (randomPick weightedPick : Option String),
      Example.world.save.bases = hq :: bases ∧ Example.finalWorld.save.bases = hq' :: bases ∧
      hq'.transfers = hq.transfers ++ items.map
        (fun ti => ({ hours := 1, itemId := ti.1, itemQty := ti.2 } : Transfer)) ∧
      (items.map Prod.fst).Nodup ∧
      (Example.richEvent.randomItemList = [] → randomPick = none) ∧
      (Example.richEvent.randomItemList ≠ [] →
        ∃ name ∈ Example.richEvent.randomItemList, randomPick = some name) ∧
      (Example.richEvent.weightedItemList.empty = true → weightedPick = none) ∧
      (Example.richEvent.weightedItemList.empty = false →
        ∃ rng, weightedPick = some (Example.richEvent.weightedItemList.choose rng).1) ∧
      ∀ T : String,
        (T ∈ items.map Prod.fst ↔
          (∃ pair ∈ Example.richEvent.everyMultiItemList,
            (Example.mod.getItem pair.1).map RuleItem.type = some T) ∨
          (∃ name ∈ Example.richEvent.everyItemList,
            (Example.mod.getItem name).map RuleItem.type = some T) ∨
          (randomPick.bind Example.mod.getItem).map RuleItem.type = some T ∨
          (weightedPick.bind Example.mod.getItem).map RuleItem.type = some T) ∧
        ∀ q, (T, q) ∈ items →
          q = ((Example.richEvent.everyMultiItemList.filter (fun pair =>
                  decide ((Example.mod.getItem pair.1).map RuleItem.type = some T))).map
                    Prod.snd).sum
              + ((Example.richEvent.everyItemList.filter (fun name =>
                  decide ((Example.mod.getItem name).map RuleItem.type = some T))).length : Int)
              + (if (randomPick.bind Example.mod.getItem).map RuleItem.type = some T
                  then 1 else 0)
              + (if (weightedPick.bind Example.mod.getItem).map RuleItem.type = some T
                  then 1 else 0) :=
  ⟨by decide,
   eventLogic_transfers Example.mod Example.language Example.richEvent Example.world
     Example.finalWorld (by decide)⟩

end GeoscapeEventState

end OpenXcom
